import Mathlib

/-!
# Verification of the `mltt` core (`rust-nbe-for-mltt`)

A shallow embedding of the core type checker of the repository:

* `crates/mltt-core/src/validate.rs` — the bidirectional validator
  (`Context`, `check_term`, `synth_term`, `synth_universe`, `check_literal`,
  `synth_literal`, `expect_subtype`), translated directly from the source;
* `crates/mltt-core/src/meta.rs` — the metavariable environment, translated
  directly from the source;
* the core syntax, semantic domain, evaluator, readback and subtype checker
  (`syntax/core.rs`, `syntax/domain.rs`, `nbe.rs`), whose sources are not in
  the snapshot; these are modelled from the specification (marked
  `Modelled from the spec:` below).

Recursion in the evaluator and the validator is not structural (closures
re-enter evaluation), so every recursive function takes a fuel parameter and
returns a three-valued result (`Res`): success, a domain error, or fuel
exhaustion.  Fuel exhaustion is kept apart from domain errors so that
theorems about error behaviour are not polluted by the fuel artifact.
-/

set_option maxRecDepth 8000
set_option linter.unreachableTactic false
set_option linter.unusedTactic false

namespace Mltt

/-- Result of a fuelled computation: success, a domain error, or fuel
exhaustion (`timeout`, which the Rust original — being unbounded
recursion — never exhibits). -/
inductive Res (ε α : Type) where
  | ok (a : α)
  | err (e : ε)
  | timeout
  deriving DecidableEq, Repr

namespace Res

/-- Monadic bind for `Res`: errors and fuel exhaustion propagate. -/
def bind {ε α β : Type} : Res ε α → (α → Res ε β) → Res ε β
  | .ok a, f => f a
  | .err e, _ => .err e
  | .timeout, _ => .timeout

instance {ε : Type} : Monad (Res ε) where
  pure := Res.ok
  bind := Res.bind

@[simp]
theorem bind_ok {ε α β : Type} (a : α) (f : α → Res ε β) :
    Res.bind (.ok a) f = f a := rfl

@[simp]
theorem bind_err {ε α β : Type} (e : ε) (f : α → Res ε β) :
    Res.bind (.err e) f = .err e := rfl

@[simp]
theorem bind_timeout {ε α β : Type} (f : α → Res ε β) :
    Res.bind (.timeout : Res ε α) f = .timeout := rfl

/-- Inversion for a bind that produced an error. -/
theorem bind_eq_err {ε α β : Type} {x : Res ε α} {f : α → Res ε β} {e : ε}
    (h : Res.bind x f = .err e) :
    x = .err e ∨ ∃ a, x = .ok a ∧ f a = .err e := by
  cases x with
  | ok a => exact Or.inr ⟨a, rfl, h⟩
  | err e' => exact Or.inl (by simpa [Res.bind] using h)
  | timeout => simp [Res.bind] at h

end Res

/-! ## Core syntax

`Modelled from the spec:` the core term algebra lives in
`crates/mltt-core/src/syntax/core.rs` and `syntax/mod.rs`, which are not in
the snapshot.  The constructors and their arities follow §3 of the spec
("Core term (sum): …") and the patterns matched in `validate.rs`. -/

/-- `Modelled from the spec:` application modes — "explicit, implicit(name),
instance(name) — a tag that must match at every application site". -/
inductive AppMode where
  | explicit
  | implicit (label : String)
  | instanceMode (label : String)
  deriving DecidableEq, Repr

/-- `Modelled from the spec:` the literal types — "one of: String, Char,
Bool, U8/U16/U32/U64, S8/S16/S32/S64, F32, F64". -/
inductive LiteralType where
  | string | char | bool
  | u8 | u16 | u32 | u64
  | s8 | s16 | s32 | s64
  | f32 | f64
  deriving DecidableEq, Repr

/-- `Modelled from the spec:` literal introductions — "a typed constant
payload of the matching kind".  Unsigned payloads are `Nat`, signed are
`Int`.  Float payloads are represented by their IEEE 754 *bit patterns*
(as `Nat`), because the spec stipulates that "equality of float literal
payloads uses **bit-wise** equality (not IEEE `==`)" and that the validator
sorts pattern tables bit-wise; with the bit-pattern representation those
operations are plain equality and ordering of the payload. -/
inductive LiteralIntro where
  | string (s : String)
  | char (c : Char)
  | bool (b : Bool)
  | u8 (n : Nat) | u16 (n : Nat) | u32 (n : Nat) | u64 (n : Nat)
  | s8 (n : Int) | s16 (n : Int) | s32 (n : Int) | s64 (n : Int)
  | f32 (bits : Nat) | f64 (bits : Nat)
  deriving DecidableEq, Repr

namespace LiteralIntro

/-- Discriminant position of a literal, mirroring the declaration order of
the Rust enum (Rust's derived ordering compares variants by declaration
order first). -/
def tag : LiteralIntro → Nat
  | .string _ => 0
  | .char _ => 1
  | .bool _ => 2
  | .u8 _ => 3
  | .u16 _ => 4
  | .u32 _ => 5
  | .u64 _ => 6
  | .s8 _ => 7
  | .s16 _ => 8
  | .s32 _ => 9
  | .s64 _ => 10
  | .f32 _ => 11
  | .f64 _ => 12

/-- `Modelled from the spec:` the total comparison of literal payloads used
by the validator's sortedness check: variants compare by declaration order,
and payloads of the same kind compare by payload value — for floats, by
their bit pattern ("The validator rejects pattern tables that are not
bit-wise sorted"). -/
def cmp : LiteralIntro → LiteralIntro → Ordering
  | .string a, .string b => compare a b
  | .char a, .char b => compare a b
  | .bool a, .bool b => compare a b
  | .u8 a, .u8 b => compare a b
  | .u16 a, .u16 b => compare a b
  | .u32 a, .u32 b => compare a b
  | .u64 a, .u64 b => compare a b
  | .s8 a, .s8 b => compare a b
  | .s16 a, .s16 b => compare a b
  | .s32 a, .s32 b => compare a b
  | .s64 a, .s64 b => compare a b
  | .f32 a, .f32 b => compare a b
  | .f64 a, .f64 b => compare a b
  | a, b => compare a.tag b.tag

/-- The `l1 >= l2` test used in `check_term`'s sortedness guard
(`validate.rs` line 269). -/
def geB (l1 l2 : LiteralIntro) : Bool :=
  match cmp l1 l2 with
  | .lt => false
  | _ => true

/-- The strict `<` induced by `cmp`. -/
def ltP (l1 l2 : LiteralIntro) : Prop := cmp l1 l2 = .lt

end LiteralIntro

/-- The clause-pattern sortedness guard of `check_term`
(`validate.rs` lines 265–270): some adjacent pair of patterns has the first
`>=` the second. -/
def badPats : List LiteralIntro → Bool
  | l1 :: l2 :: rest => LiteralIntro.geB l1 l2 || badPats (l2 :: rest)
  | _ => false

/-- `Modelled from the spec:` the core term algebra (§3 "Core term (sum)").
Record type fields are `(doc, label, type)`; clause lists pair a literal
pattern with a body.  The spec's core term sum has no metavariable former. -/
inductive Term where
  | var (index : Nat)
  | prim (name : String)
  | letE (defn : Term) (defnTy : Term) (body : Term)
  | literalType (ty : LiteralType)
  | literalIntro (lit : LiteralIntro)
  | literalElim (scrutinee : Term) (clauses : List (LiteralIntro × Term)) (defaultBody : Term)
  | funType (mode : AppMode) (paramTy : Term) (bodyTy : Term)
  | funIntro (mode : AppMode) (body : Term)
  | funElim (fn : Term) (mode : AppMode) (arg : Term)
  | recordType (fields : List (String × String × Term))
  | recordIntro (fields : List (String × Term))
  | recordElim (record : Term) (label : String)
  | universe (level : Nat)

mutual

/-- Structural equality of terms, mirroring Rust's derived `PartialEq` on
the core term type.  (Readback produces index-based terms, and the
conversion check compares them with `==`.) -/
def Term.beq : Term → Term → Bool
  | .var i, .var j => i == j
  | .prim n1, .prim n2 => n1 == n2
  | .letE d1 t1 b1, .letE d2 t2 b2 => Term.beq d1 d2 && Term.beq t1 t2 && Term.beq b1 b2
  | .literalType t1, .literalType t2 => t1 == t2
  | .literalIntro l1, .literalIntro l2 => l1 == l2
  | .literalElim s1 c1 d1, .literalElim s2 c2 d2 =>
      Term.beq s1 s2 && Term.beqClauses c1 c2 && Term.beq d1 d2
  | .funType m1 p1 b1, .funType m2 p2 b2 => m1 == m2 && Term.beq p1 p2 && Term.beq b1 b2
  | .funIntro m1 b1, .funIntro m2 b2 => m1 == m2 && Term.beq b1 b2
  | .funElim f1 m1 a1, .funElim f2 m2 a2 => Term.beq f1 f2 && m1 == m2 && Term.beq a1 a2
  | .recordType f1, .recordType f2 => Term.beqTyFields f1 f2
  | .recordIntro f1, .recordIntro f2 => Term.beqIntroFields f1 f2
  | .recordElim r1 l1, .recordElim r2 l2 => Term.beq r1 r2 && l1 == l2
  | .universe l1, .universe l2 => l1 == l2
  | _, _ => false
termination_by structural t1 => t1

/-- Equality of literal-elimination clause lists. -/
def Term.beqClauses : List (LiteralIntro × Term) → List (LiteralIntro × Term) → Bool
  | [], [] => true
  | (l1, t1) :: r1, (l2, t2) :: r2 => l1 == l2 && Term.beq t1 t2 && Term.beqClauses r1 r2
  | _, _ => false
termination_by structural c1 => c1

/-- Equality of record-type field lists. -/
def Term.beqTyFields : List (String × String × Term) → List (String × String × Term) → Bool
  | [], [] => true
  | (d1, l1, t1) :: r1, (d2, l2, t2) :: r2 =>
      d1 == d2 && l1 == l2 && Term.beq t1 t2 && Term.beqTyFields r1 r2
  | _, _ => false
termination_by structural f1 => f1

/-- Equality of record-introduction field lists. -/
def Term.beqIntroFields : List (String × Term) → List (String × Term) → Bool
  | [], [] => true
  | (l1, t1) :: r1, (l2, t2) :: r2 => l1 == l2 && Term.beq t1 t2 && Term.beqIntroFields r1 r2
  | _, _ => false
termination_by structural f1 => f1

end

/-! ## Semantic domain

`Modelled from the spec:` the value domain lives in
`crates/mltt-core/src/syntax/domain.rs`, which is not in the snapshot
(the file under `src/src/syntax/domain.rs` is an older, pair-based domain
that the spec marks as "legacy … do not expose").  The constructors follow
§3 of the spec ("Value / weak-head-normal form (sum)" and "Neutral (sum)").
The spec annotates neutrals (and application arguments) with their types,
but also states that "in the evaluator we need only the neutral; types flow
through the context", and `Context::add_param` in `validate.rs` passes no
type down to the value environment; the annotations are therefore omitted
here — no claim depends on them. -/

mutual

/-- `Modelled from the spec:` weak-head-normal values (§3). -/
inductive Value where
  | neutral (n : Neutral)
  | literalType (ty : LiteralType)
  | literalIntro (lit : LiteralIntro)
  | funType (mode : AppMode) (paramTy : Value) (bodyTy : AppClosure)
  | funIntro (mode : AppMode) (body : AppClosure)
  | recordTypeExtend (doc : String) (label : String) (fieldTy : Value) (rest : AppClosure)
  | recordTypeEmpty
  | recordIntro (fields : List (String × Value))
  | universe (level : Nat)

/-- `Modelled from the spec:` neutral (stuck) computations (§3). -/
inductive Neutral where
  | var (level : Nat)
  | meta (index : Nat)
  | prim (name : String)
  | funApp (n : Neutral) (mode : AppMode) (arg : Value)
  | recordElim (n : Neutral) (label : String)
  | literalElim (n : Neutral) (clauses : List (LiteralIntro × Value)) (defaultBody : Value)

/-- `Modelled from the spec:` a closure is "a term plus the environment it
captures" (§3); the environment is the sequence of values with the most
recently bound entry at the front. -/
inductive AppClosure where
  | mk (term : Term) (env : List Value)

end

/-- `Modelled from the spec:` the value environment (§3): entries are
pushed at the front (index 0 = most recently bound); a parameter entry is
the neutral variable at level = length at the time of the push. -/
abbrev Env := List Value

/-! ## Primitive environment

`Modelled from the spec:` §4.6 — "A primitive entry is a
`(value, optional_reducer)`; … Primitives are looked up by exact string
name", and §4.1 — "If it is a constant, return its value; otherwise return
a neutral primitive head" / "A primitive entry carries an arity and a
reducer of type `[value] → value | None`". -/
structure PrimEntry where
  value : Value
  reducer : Option (Nat × (List Value → Option Value))

/-- `Modelled from the spec:` the registry of named primitives. -/
abbrev PrimEnv := List (String × PrimEntry)

/-- Look up a primitive entry by exact string name
(first matching binding). -/
def lookupEntry : PrimEnv → String → Option PrimEntry
  | [], _ => none
  | (n, e) :: rest, name => if n == name then some e else lookupEntry rest name

/-- `Modelled from the spec:` evaluation errors (§4.1 "Failure" / §7):
out-of-range index, absent label, applying a non-function, malformed
primitive application.  All carry only a message, as they "indicate a bug
in the validator or elaborator". -/
structure NbeError where
  message : String
  deriving DecidableEq, Repr

/-! ## Evaluator

`Modelled from the spec:` §4.1, `nbe.rs` not being in the snapshot.  Each
rule below is the corresponding bullet of §4.1. -/

/-- Find the first clause whose literal pattern matches the scrutinee's
payload; matching is bit-wise equality of payloads (§4.1 "Float literal
matching"), which on the bit-pattern representation is structural
equality. -/
def findClause (lit : LiteralIntro) : List (LiteralIntro × Term) → Option Term
  | [] => none
  | (l, body) :: rest => if l == lit then some body else findClause lit rest

/-- Project a label out of an evaluated record introduction (first
matching field). -/
def lookupRecordField (label : String) : List (String × Value) → Option Value
  | [] => none
  | (l, v) :: rest => if l == label then some v else lookupRecordField label rest

/-- Decompose a neutral into its head and the accumulated application
arguments (spine), for primitive firing. -/
def neutralSpine : Neutral → Neutral × List Value
  | .funApp n _ arg =>
      let (h, args) := neutralSpine n
      (h, args ++ [arg])
  | n => (n, [])

/-- `Modelled from the spec:` record elimination on a value (§4.1):
project by label from a record intro, keep a stuck projection on a
neutral, fail otherwise. -/
def doRecordElim : Value → String → Res NbeError Value
  | .recordIntro fields, label =>
      match lookupRecordField label fields with
      | some v => .ok v
      | none => .err ⟨"do_record_elim: no field in record"⟩
  | .neutral n, label => .ok (.neutral (.recordElim n label))
  | _, _ => .err ⟨"do_record_elim: not a record"⟩

mutual

/-- `Modelled from the spec:` `eval(prims, env, term) → value | error`
(§4.1), with a fuel parameter standing for the call depth. -/
def eval (prims : PrimEnv) : Nat → Env → Term → Res NbeError Value
  | 0, _, _ => .timeout
  | fuel + 1, env, t =>
    match t with
    | .var index =>
        match env.get? index with
        | some value => .ok value
        | none => .err ⟨"eval: variable not found"⟩
    | .prim name =>
        match lookupEntry prims name with
        | some entry =>
            match entry.reducer with
            | none => .ok entry.value
            | some _ => .ok (.neutral (.prim name))
        | none => .err ⟨"eval: unbound primitive"⟩
    | .letE defn _defnTy body =>
        Res.bind (eval prims fuel env defn) fun defnValue =>
          eval prims fuel (defnValue :: env) body
    | .literalType ty => .ok (.literalType ty)
    | .literalIntro lit => .ok (.literalIntro lit)
    | .literalElim scrutinee clauses defaultBody =>
        Res.bind (eval prims fuel env scrutinee) fun scrut =>
          match scrut with
          | .literalIntro lit =>
              match findClause lit clauses with
              | some body => eval prims fuel env body
              | none => eval prims fuel env defaultBody
          | .neutral n =>
              Res.bind (evalClauses prims fuel env clauses) fun clauseValues =>
                Res.bind (eval prims fuel env defaultBody) fun defaultValue =>
                  .ok (.neutral (.literalElim n clauseValues defaultValue))
          | _ => .err ⟨"eval: literal elim of a non-literal"⟩
    | .funType mode paramTy bodyTy =>
        Res.bind (eval prims fuel env paramTy) fun paramTyValue =>
          .ok (.funType mode paramTyValue (.mk bodyTy env))
    | .funIntro mode body => .ok (.funIntro mode (.mk body env))
    | .funElim fn mode arg =>
        Res.bind (eval prims fuel env fn) fun fnValue =>
          Res.bind (eval prims fuel env arg) fun argValue =>
            doFunElim prims fuel fnValue mode argValue
    | .recordType fields =>
        match fields with
        | [] => .ok .recordTypeEmpty
        | (doc, label, ty) :: rest =>
            Res.bind (eval prims fuel env ty) fun tyValue =>
              .ok (.recordTypeExtend doc label tyValue (.mk (.recordType rest) env))
    | .recordIntro fields =>
        Res.bind (evalRecordIntroFields prims fuel env fields) fun fieldValues =>
          .ok (.recordIntro fieldValues)
    | .recordElim record label =>
        Res.bind (eval prims fuel env record) fun recordValue =>
          doRecordElim recordValue label
    | .universe level => .ok (.universe level)
termination_by structural fuel _ => fuel

/-- `Modelled from the spec:` closure application (§4.1): "push `arg` as a
definition onto the closure's env; evaluate the closure's term". -/
def doClosureApp (prims : PrimEnv) : Nat → AppClosure → Value → Res NbeError Value
  | 0, _, _ => .timeout
  | fuel + 1, .mk term env, arg => eval prims fuel (arg :: env) term
termination_by structural fuel _ => fuel

/-- `Modelled from the spec:` function elimination on values (§4.1):
apply a closure for a function intro; extend the spine of a neutral, trying
the primitive reducer when the head is a primitive with sufficient
accumulated arguments ("on `None`, the application remains stuck"). -/
def doFunElim (prims : PrimEnv) : Nat → Value → AppMode → Value → Res NbeError Value
  | 0, _, _, _ => .timeout
  | fuel + 1, fnValue, mode, argValue =>
    match fnValue with
    | .funIntro _ body => doClosureApp prims fuel body argValue
    | .neutral n =>
        let stuck := Neutral.funApp n mode argValue
        match neutralSpine stuck with
        | (.prim name, args) =>
            match lookupEntry prims name with
            | some entry =>
                match entry.reducer with
                | some (arity, reduce) =>
                    if args.length == arity then
                      match reduce args with
                      | some v => .ok v
                      | none => .ok (.neutral stuck)
                    else .ok (.neutral stuck)
                | none => .ok (.neutral stuck)
            | none => .ok (.neutral stuck)
        | _ => .ok (.neutral stuck)
    | _ => .err ⟨"do_fun_elim: not a function"⟩
termination_by structural fuel _ => fuel

/-- `Modelled from the spec:` evaluate the clause bodies of a stuck literal
elimination ("here, eagerly, using the current environment", §4.1). -/
def evalClauses (prims : PrimEnv) :
    Nat → Env → List (LiteralIntro × Term) → Res NbeError (List (LiteralIntro × Value))
  | 0, _, _ => .timeout
  | _fuel + 1, _, [] => .ok []
  | fuel + 1, env, (lit, body) :: rest =>
      Res.bind (eval prims fuel env body) fun bodyValue =>
        Res.bind (evalClauses prims fuel env rest) fun restValues =>
          .ok ((lit, bodyValue) :: restValues)
termination_by structural fuel _ => fuel

/-- `Modelled from the spec:` record-intro evaluation (§4.1): "evaluate
each field in order, extending the environment with each value as a
definition before evaluating the next". -/
def evalRecordIntroFields (prims : PrimEnv) :
    Nat → Env → List (String × Term) → Res NbeError (List (String × Value))
  | 0, _, _ => .timeout
  | _fuel + 1, _, [] => .ok []
  | fuel + 1, env, (label, term) :: rest =>
      Res.bind (eval prims fuel env term) fun termValue =>
        Res.bind (evalRecordIntroFields prims fuel (termValue :: env) rest) fun restValues =>
          .ok ((label, termValue) :: restValues)
termination_by structural fuel _ => fuel

end

/-! ## Readback

`Modelled from the spec:` §4.2, untyped (structural) readback — the only
form the subtype checker needs: "neutral → readback the neutral;
function/record intro → no η-expansion, readback components; closures
encountered are forced by applying to a fresh parameter at `depth` and
recursing at `depth+1`"; "variable at level *l* becomes index
`depth − l − 1`".  The spec's core term sum has no metavariable former, so
reading back a metavariable head is an (unreachable-for-validated-values)
error. -/

mutual

/-- `Modelled from the spec:` untyped readback of a value at a context
depth (§4.2). -/
def readBack (prims : PrimEnv) : Nat → Nat → Value → Res NbeError Term
  | 0, _, _ => .timeout
  | fuel + 1, depth, v =>
    match v with
    | .neutral n => readBackNeutral prims fuel depth n
    | .literalType ty => .ok (.literalType ty)
    | .literalIntro lit => .ok (.literalIntro lit)
    | .funType mode paramTy bodyTy =>
        Res.bind (readBack prims fuel depth paramTy) fun paramTyTerm =>
          Res.bind (doClosureApp prims fuel bodyTy (.neutral (.var depth))) fun bodyTyValue =>
            Res.bind (readBack prims fuel (depth + 1) bodyTyValue) fun bodyTyTerm =>
              .ok (.funType mode paramTyTerm bodyTyTerm)
    | .funIntro mode body =>
        Res.bind (doClosureApp prims fuel body (.neutral (.var depth))) fun bodyValue =>
          Res.bind (readBack prims fuel (depth + 1) bodyValue) fun bodyTerm =>
            .ok (.funIntro mode bodyTerm)
    | .recordTypeExtend doc label fieldTy rest =>
        Res.bind (readBackTyFields prims fuel depth (.recordTypeExtend doc label fieldTy rest))
          fun fields => .ok (.recordType fields)
    | .recordTypeEmpty => .ok (.recordType [])
    | .recordIntro fields =>
        Res.bind (readBackIntroFields prims fuel depth fields) fun fieldTerms =>
          .ok (.recordIntro fieldTerms)
    | .universe level => .ok (.universe level)
termination_by structural fuel _ => fuel

/-- `Modelled from the spec:` readback of the field telescope of a record
type, opening each rest closure with a fresh variable (§4.2). -/
def readBackTyFields (prims : PrimEnv) :
    Nat → Nat → Value → Res NbeError (List (String × String × Term))
  | 0, _, _ => .timeout
  | fuel + 1, depth, v =>
    match v with
    | .recordTypeExtend doc label fieldTy rest =>
        Res.bind (readBack prims fuel depth fieldTy) fun fieldTyTerm =>
          Res.bind (doClosureApp prims fuel rest (.neutral (.var depth))) fun restValue =>
            Res.bind (readBackTyFields prims fuel (depth + 1) restValue) fun restFields =>
              .ok ((doc, label, fieldTyTerm) :: restFields)
    | .recordTypeEmpty => .ok []
    | _ => .err ⟨"read_back: malformed record type"⟩
termination_by structural fuel _ => fuel

/-- Readback of the fields of a record introduction, in order. -/
def readBackIntroFields (prims : PrimEnv) :
    Nat → Nat → List (String × Value) → Res NbeError (List (String × Term))
  | 0, _, _ => .timeout
  | _fuel + 1, _, [] => .ok []
  | fuel + 1, depth, (label, v) :: rest =>
      Res.bind (readBack prims fuel depth v) fun vTerm =>
        Res.bind (readBackIntroFields prims fuel depth rest) fun restTerms =>
          .ok ((label, vTerm) :: restTerms)
termination_by structural fuel _ => fuel

/-- `Modelled from the spec:` readback of a neutral (§4.2 "Neutral
readback"). -/
def readBackNeutral (prims : PrimEnv) : Nat → Nat → Neutral → Res NbeError Term
  | 0, _, _ => .timeout
  | fuel + 1, depth, n =>
    match n with
    | .var level => .ok (.var (depth - level - 1))
    | .meta _ => .err ⟨"read_back: metavariable"⟩
    | .prim name => .ok (.prim name)
    | .funApp n' mode arg =>
        Res.bind (readBackNeutral prims fuel depth n') fun fnTerm =>
          Res.bind (readBack prims fuel depth arg) fun argTerm =>
            .ok (.funElim fnTerm mode argTerm)
    | .recordElim n' label =>
        Res.bind (readBackNeutral prims fuel depth n') fun recordTerm =>
          .ok (.recordElim recordTerm label)
    | .literalElim n' clauses defaultBody =>
        Res.bind (readBackNeutral prims fuel depth n') fun scrutTerm =>
          Res.bind (readBackNeutralClauses prims fuel depth clauses) fun clauseTerms =>
            Res.bind (readBack prims fuel depth defaultBody) fun defaultTerm =>
              .ok (.literalElim scrutTerm clauseTerms defaultTerm)
termination_by structural fuel _ => fuel

/-- Readback of the (already evaluated) clause bodies of a stuck literal
elimination. -/
def readBackNeutralClauses (prims : PrimEnv) :
    Nat → Nat → List (LiteralIntro × Value) → Res NbeError (List (LiteralIntro × Term))
  | 0, _, _ => .timeout
  | _fuel + 1, _, [] => .ok []
  | fuel + 1, depth, (lit, body) :: rest =>
      Res.bind (readBack prims fuel depth body) fun bodyTerm =>
        Res.bind (readBackNeutralClauses prims fuel depth rest) fun restTerms =>
          .ok ((lit, bodyTerm) :: restTerms)
termination_by structural fuel _ => fuel

end

/-! ## Subtyping -/

/-- `Modelled from the spec:` `check_subtype(prims, level, ty1, ty2)`
(§4.3): cumulativity at universes, contravariant domains and covariant
codomains at function types (modes matching exactly), covariant fields at
record types, and otherwise conversion — "readback both at the same …
depth, then compare terms structurally". -/
def checkSubtype (prims : PrimEnv) : Nat → Nat → Value → Value → Res NbeError Bool
  | 0, _, _, _ => .timeout
  | fuel + 1, level, ty1, ty2 =>
    match ty1, ty2 with
    | .universe i, .universe j => .ok (decide (i ≤ j))
    | .funType mode1 paramTy1 bodyTy1, .funType mode2 paramTy2 bodyTy2 =>
        if mode1 = mode2 then
          Res.bind (checkSubtype prims fuel level paramTy2 paramTy1) fun domOk =>
            if domOk then
              let param := Value.neutral (.var level)
              Res.bind (doClosureApp prims fuel bodyTy1 param) fun body1 =>
                Res.bind (doClosureApp prims fuel bodyTy2 param) fun body2 =>
                  checkSubtype prims fuel (level + 1) body1 body2
            else .ok false
        else .ok false
    | .recordTypeExtend _ label1 fieldTy1 rest1, .recordTypeExtend _ label2 fieldTy2 rest2 =>
        if label1 = label2 then
          Res.bind (checkSubtype prims fuel level fieldTy1 fieldTy2) fun fieldOk =>
            if fieldOk then
              let param := Value.neutral (.var level)
              Res.bind (doClosureApp prims fuel rest1 param) fun restTy1 =>
                Res.bind (doClosureApp prims fuel rest2 param) fun restTy2 =>
                  checkSubtype prims fuel (level + 1) restTy1 restTy2
            else .ok false
        else .ok false
    | .recordTypeEmpty, .recordTypeEmpty => .ok true
    | t1, t2 =>
        Res.bind (readBack prims fuel level t1) fun term1 =>
          Res.bind (readBack prims fuel level t2) fun term2 =>
            .ok (Term.beq term1 term2)
termination_by structural fuel _ => fuel

/-! ## The validator (`validate.rs`)

Everything from here on is translated directly from
`crates/mltt-core/src/validate.rs`. -/

/-- An error produced during type checking
(`validate.rs` lines 115–131). -/
inductive TypeError where
  | expectedFunType (found : Value)
  | expectedPairType (found : Value)
  | expectedUniverse (found : Value)
  | expectedSubtype (ty1 ty2 : Value)
  | ambiguousTerm (term : Term)
  | unboundVariable
  | unknownPrim (name : String)
  | badLiteralPatterns (literalIntros : List LiteralIntro)
  | noFieldInType (label : String)
  | unexpectedField (found : String) (expected : String)
  | unexpectedAppMode (found : AppMode) (expected : AppMode)
  | tooManyFieldsFound
  | notEnoughFieldsProvided
  | nbe (error : NbeError)

/-- Lift an evaluation result into the validator's error type
(`impl From<NbeError> for TypeError`, `validate.rs` lines 133–137, applied
by the `?` operator). -/
def liftNbe {α : Type} : Res NbeError α → Res TypeError α
  | .ok a => .ok a
  | .err e => .err (.nbe e)
  | .timeout => .timeout

/-- Local type checking context (`validate.rs` lines 16–24): primitive
entries, the value environment, and the parallel sequence of the entries'
types. -/
structure Context where
  prims : PrimEnv
  values : Env
  tys : List Value

namespace Context

/-- `Context::new` (`validate.rs` lines 27–34): a new, empty context. -/
def new : Context := { prims := [], values := [], tys := [] }

/-- `Context::lookup_ty` (`validate.rs` lines 46–48). -/
def lookupTy (ctx : Context) (index : Nat) : Option Value :=
  ctx.tys.get? index

/-- The context depth, `self.values().level()`: the length of the value
environment. -/
def level (ctx : Context) : Nat := ctx.values.length

/-- `Context::add_defn` (`validate.rs` lines 50–55): push the type onto the
types sequence and the value onto the value environment (both at the
front). -/
def addDefn (ctx : Context) (value ty : Value) : Context :=
  { ctx with values := value :: ctx.values, tys := ty :: ctx.tys }

/-- `Context::add_param` (`validate.rs` lines 57–63): push the type onto
the types sequence, push a fresh parameter — the neutral variable at the
current level — onto the value environment, and return that variable. -/
def addParam (ctx : Context) (ty : Value) : Context × Value :=
  let param := Value.neutral (.var ctx.values.length)
  ({ ctx with values := param :: ctx.values, tys := ty :: ctx.tys }, param)

/-- `Context::eval` (`validate.rs` lines 70–73). -/
def eval (ctx : Context) (fuel : Nat) (term : Term) : Res NbeError Value :=
  Mltt.eval ctx.prims fuel ctx.values term

/-- `Context::do_closure_app` (`validate.rs` lines 65–68). -/
def doClosureApp (ctx : Context) (fuel : Nat) (closure : AppClosure) (arg : Value) :
    Res NbeError Value :=
  Mltt.doClosureApp ctx.prims fuel closure arg

/-- `Context::expect_subtype` (`validate.rs` lines 75–82): succeed when
`check_subtype` answers `true`, and report `ExpectedSubtype` otherwise. -/
def expectSubtype (ctx : Context) (fuel : Nat) (ty1 ty2 : Value) : Res TypeError Unit :=
  match checkSubtype ctx.prims fuel ctx.level ty1 ty2 with
  | .ok true => .ok ()
  | .ok false => .err (.expectedSubtype ty1 ty2)
  | .err e => .err (.nbe e)
  | .timeout => .timeout

end Context

/-- `synth_literal` (`validate.rs` lines 212–229): the inferred type of a
literal is the canonical literal type of its payload kind. -/
def synthLiteral : LiteralIntro → Value
  | .string _ => .literalType .string
  | .char _ => .literalType .char
  | .bool _ => .literalType .bool
  | .u8 _ => .literalType .u8
  | .u16 _ => .literalType .u16
  | .u32 _ => .literalType .u32
  | .u64 _ => .literalType .u64
  | .s8 _ => .literalType .s8
  | .s16 _ => .literalType .s16
  | .s32 _ => .literalType .s32
  | .s64 _ => .literalType .s64
  | .f32 _ => .literalType .f32
  | .f64 _ => .literalType .f64

/-- `check_literal` (`validate.rs` lines 203–210): the synthesized literal
type must be a subtype of the expected type. -/
def checkLiteral (fuel : Nat) (ctx : Context) (lit : LiteralIntro) (expectedTy : Value) :
    Res TypeError Unit :=
  ctx.expectSubtype fuel (synthLiteral lit) expectedTy

mutual

/-- `check_term` (`validate.rs` lines 240–335): check that a term conforms
to a given type.  The fuel parameter stands for the recursion depth of the
Rust original. -/
def checkTerm : Nat → Context → Term → Value → Res TypeError Unit
  | 0, _, _, _ => .timeout
  | fuel + 1, ctx, t, expectedTy =>
    match t with
    | .prim name =>
        match lookupEntry ctx.prims name with
        | none => .err (.unknownPrim name)
        | some _ => .ok ()
    | .letE defn defnTy body =>
        match synthUniverse fuel ctx defnTy with
        | .ok _ =>
          match liftNbe (ctx.eval fuel defnTy) with
          | .ok defnTyValue =>
            match checkTerm fuel ctx defn defnTyValue with
            | .ok _ =>
              match liftNbe (ctx.eval fuel defn) with
              | .ok defnValue =>
                  checkTerm fuel (ctx.addDefn defnValue defnTyValue) body expectedTy
              | .err e => .err e
              | .timeout => .timeout
            | .err e => .err e
            | .timeout => .timeout
          | .err e => .err e
          | .timeout => .timeout
        | .err e => .err e
        | .timeout => .timeout
    | .literalElim scrutinee clauses defaultBody =>
        match synthTerm fuel ctx scrutinee with
        | .ok scrutineeTy =>
          if badPats (clauses.map Prod.fst) then
            .err (.badLiteralPatterns (clauses.map Prod.fst))
          else
            match checkClauses fuel ctx clauses scrutineeTy expectedTy with
            | .ok _ => checkTerm fuel ctx defaultBody expectedTy
            | .err e => .err e
            | .timeout => .timeout
        | .err e => .err e
        | .timeout => .timeout
    | .funIntro introAppMode body =>
        match expectedTy with
        | .funType tyAppMode paramTy bodyTy =>
            if introAppMode = tyAppMode then
              match ctx.addParam paramTy with
              | (bodyCtx, param) =>
                match liftNbe (ctx.doClosureApp fuel bodyTy param) with
                | .ok bodyTyValue => checkTerm fuel bodyCtx body bodyTyValue
                | .err e => .err e
                | .timeout => .timeout
            else .err (.unexpectedAppMode introAppMode tyAppMode)
        | _ => .err (.expectedFunType expectedTy)
    | .recordIntro introFields => checkRecordIntroFields fuel ctx introFields expectedTy
    | t' =>
        match synthTerm fuel ctx t' with
        | .ok ty => ctx.expectSubtype fuel ty expectedTy
        | .err e => .err e
        | .timeout => .timeout
termination_by structural fuel _ => fuel

/-- The clause loop of `check_term`'s literal-elimination case
(`validate.rs` lines 276–279): each pattern is checked against the
scrutinee's type and each body against the expected type, in order. -/
def checkClauses :
    Nat → Context → List (LiteralIntro × Term) → Value → Value → Res TypeError Unit
  | 0, _, _, _, _ => .timeout
  | _fuel + 1, _, [], _, _ => .ok ()
  | fuel + 1, ctx, (lit, body) :: rest, scrutineeTy, expectedTy =>
      match checkLiteral fuel ctx lit scrutineeTy with
      | .ok _ =>
        match checkTerm fuel ctx body expectedTy with
        | .ok _ => checkClauses fuel ctx rest scrutineeTy expectedTy
        | .err e => .err e
        | .timeout => .timeout
      | .err e => .err e
      | .timeout => .timeout
termination_by structural fuel _ => fuel

/-- The field loop of `check_term`'s record-introduction case
(`validate.rs` lines 301–331): walk the expected record type in declared
order; labels must match exactly; each field term is checked against its
field type, added to the context as a definition, and the rest closure is
opened with its value; the walk must end exactly at the empty record
type. -/
def checkRecordIntroFields :
    Nat → Context → List (String × Term) → Value → Res TypeError Unit
  | 0, _, _, _ => .timeout
  | _fuel + 1, _, [], expectedTy =>
      match expectedTy with
      | .recordTypeEmpty => .ok ()
      | _ => .err .notEnoughFieldsProvided
  | fuel + 1, ctx, (label, term) :: rest, expectedTy =>
      match expectedTy with
      | .recordTypeExtend _ expectedLabel expectedTermTy restClosure =>
          if label = expectedLabel then
            match checkTerm fuel ctx term expectedTermTy with
            | .ok _ =>
              match liftNbe (ctx.eval fuel term) with
              | .ok termValue =>
                let ctx' := ctx.addDefn termValue expectedTermTy
                match liftNbe (ctx'.doClosureApp fuel restClosure termValue) with
                | .ok expectedTy' => checkRecordIntroFields fuel ctx' rest expectedTy'
                | .err e => .err e
                | .timeout => .timeout
              | .err e => .err e
              | .timeout => .timeout
            | .err e => .err e
            | .timeout => .timeout
          else .err (.unexpectedField label expectedLabel)
      | _ => .err .tooManyFieldsFound
termination_by structural fuel _ => fuel

/-- `synth_universe` (`validate.rs` lines 231–238): the term must
synthesize a universe, whose level is returned. -/
def synthUniverse : Nat → Context → Term → Res TypeError Nat
  | 0, _, _ => .timeout
  | fuel + 1, ctx, t =>
      match synthTerm fuel ctx t with
      | .ok ty =>
          match ty with
          | .universe level => .ok level
          | _ => .err (.expectedUniverse ty)
      | .err e => .err e
      | .timeout => .timeout
termination_by structural fuel _ => fuel

/-- `synth_term` (`validate.rs` lines 337–440): synthesize the type of the
term. -/
def synthTerm : Nat → Context → Term → Res TypeError Value
  | 0, _, _ => .timeout
  | fuel + 1, ctx, t =>
    match t with
    | .var index =>
        match ctx.lookupTy index with
        | none => .err .unboundVariable
        | some ann => .ok ann
    | .prim name =>
        match lookupEntry ctx.prims name with
        | none => .err (.unknownPrim name)
        | some _ => .err (.ambiguousTerm (.prim name))
    | .letE defn defnTy body =>
        match synthUniverse fuel ctx defnTy with
        | .ok _ =>
          match liftNbe (ctx.eval fuel defnTy) with
          | .ok defnTyValue =>
            match checkTerm fuel ctx defn defnTyValue with
            | .ok _ =>
              match liftNbe (ctx.eval fuel defn) with
              | .ok defnValue => synthTerm fuel (ctx.addDefn defnValue defnTyValue) body
              | .err e => .err e
              | .timeout => .timeout
            | .err e => .err e
            | .timeout => .timeout
          | .err e => .err e
          | .timeout => .timeout
        | .err e => .err e
        | .timeout => .timeout
    | .literalType _ => .ok (.universe 0)
    | .literalIntro lit => .ok (synthLiteral lit)
    | .literalElim scrutinee clauses defaultBody =>
        .err (.ambiguousTerm (.literalElim scrutinee clauses defaultBody))
    | .funType _appMode paramTy bodyTy =>
        match synthUniverse fuel ctx paramTy with
        | .ok paramLevel =>
          match liftNbe (ctx.eval fuel paramTy) with
          | .ok paramTyValue =>
            match synthUniverse fuel (ctx.addParam paramTyValue).1 bodyTy with
            | .ok bodyLevel => .ok (.universe (max paramLevel bodyLevel))
            | .err e => .err e
            | .timeout => .timeout
          | .err e => .err e
          | .timeout => .timeout
        | .err e => .err e
        | .timeout => .timeout
    | .funIntro mode body => .err (.ambiguousTerm (.funIntro mode body))
    | .funElim fn argAppMode arg =>
        match synthTerm fuel ctx fn with
        | .ok fnTy =>
          match fnTy with
          | .funType tyAppMode argTy bodyTy =>
              if argAppMode = tyAppMode then
                match checkTerm fuel ctx arg argTy with
                | .ok _ =>
                  match liftNbe (ctx.eval fuel arg) with
                  | .ok argValue => liftNbe (ctx.doClosureApp fuel bodyTy argValue)
                  | .err e => .err e
                  | .timeout => .timeout
                | .err e => .err e
                | .timeout => .timeout
              else .err (.unexpectedAppMode argAppMode tyAppMode)
          | _ => .err (.expectedFunType fnTy)
        | .err e => .err e
        | .timeout => .timeout
    | .recordType tyFields => synthRecordTypeFields fuel ctx tyFields 0
    | .recordIntro introFields =>
        if introFields.isEmpty then .ok .recordTypeEmpty
        else .err (.ambiguousTerm (.recordIntro introFields))
    | .recordElim record label =>
        match synthTerm fuel ctx record with
        | .ok recordTy => recordElimWalk fuel ctx record label recordTy
        | .err e => .err e
        | .timeout => .timeout
    | .universe level => .ok (.universe (level + 1))
termination_by structural fuel _ => fuel

/-- The field loop of `synth_term`'s record-type case
(`validate.rs` lines 401–412): each field type must be a universe under
the accumulated context (a parameter of each evaluated field type is
pushed); the result is the maximum level, starting from 0. -/
def synthRecordTypeFields :
    Nat → Context → List (String × String × Term) → Nat → Res TypeError Value
  | 0, _, _, _ => .timeout
  | _fuel + 1, _, [], maxLevel => .ok (.universe maxLevel)
  | fuel + 1, ctx, (_, _, ty) :: rest, maxLevel =>
      match synthUniverse fuel ctx ty with
      | .ok tyLevel =>
        match liftNbe (ctx.eval fuel ty) with
        | .ok tyValue =>
            synthRecordTypeFields fuel (ctx.addParam tyValue).1 rest (max maxLevel tyLevel)
        | .err e => .err e
        | .timeout => .timeout
      | .err e => .err e
      | .timeout => .timeout
termination_by structural fuel _ => fuel

/-- The `while let` loop of `synth_term`'s record-elimination case
(`validate.rs` lines 423–435): walk the record type; on a label mismatch,
open the rest closure against the evaluation of a projection of the
*current* label through the original subject term; a type that is no
longer a record-type extension reports `NoFieldInType`. -/
def recordElimWalk : Nat → Context → Term → String → Value → Res TypeError Value
  | 0, _, _, _, _ => .timeout
  | fuel + 1, ctx, record, label, recordTy =>
    match recordTy with
    | .recordTypeExtend _ currentLabel currentTy rest =>
        if label = currentLabel then .ok currentTy
        else
          match liftNbe (ctx.eval fuel (.recordElim record currentLabel)) with
          | .ok exprValue =>
            match liftNbe (ctx.doClosureApp fuel rest exprValue) with
            | .ok recordTy' => recordElimWalk fuel ctx record label recordTy'
            | .err e => .err e
            | .timeout => .timeout
          | .err e => .err e
          | .timeout => .timeout
    | _ => .err (.noFieldInType label)
termination_by structural fuel _ => fuel

end

/-! ## Metavariable environment (`meta.rs`) -/

/-- A span in a source file (`mltt-span`): an opaque token attached to
metavariables for diagnostics.  Modelled as the file id with start and end
byte indices. -/
structure FileSpan where
  source : Nat
  start : Nat
  stop : Nat
  deriving DecidableEq, Repr

/-- An entry in the metavariable environment (`meta.rs` lines 17–22). -/
inductive Solution (α : Type) where
  | unsolved
  | solved (value : α)
  deriving DecidableEq, Repr

/-- An environment of solved and unsolved metavariables
(`meta.rs` lines 24–29): the slots, in allocation order.  Indices are
modelled as `Nat` (the `u32` id never exceeds the vector length in any
reachable state, so the `as usize` casts are the identity). -/
structure MetaEnv (α : Type) where
  solutions : List (FileSpan × Solution α)
  deriving DecidableEq, Repr

namespace MetaEnv

/-- `Env::new` (`meta.rs` lines 32–37). -/
def new {α : Type} : MetaEnv α := { solutions := [] }

/-- `Env::lookup_solution` (`meta.rs` lines 39–42). -/
def lookupSolution {α : Type} (e : MetaEnv α) (index : Nat) :
    Option (FileSpan × Solution α) :=
  e.solutions.get? index

/-- `Env::add_solved` (`meta.rs` lines 44–51).  The two `unimplemented!`
branches (double-solving, unallocated slot) abort the program; they are
modelled as `none`. -/
def addSolved {α : Type} (e : MetaEnv α) (index : Nat) (solved : α) :
    Option (MetaEnv α) :=
  match e.solutions.get? index with
  | some (span, .unsolved) => some { solutions := e.solutions.set index (span, .solved solved) }
  | some (_, .solved _) => none
  | none => none

/-- `Env::add_unsolved` (`meta.rs` lines 53–58): append a fresh unsolved
slot and return its index. -/
def addUnsolved {α : Type} (e : MetaEnv α) (span : FileSpan) : MetaEnv α × Nat :=
  ({ solutions := e.solutions ++ [(span, .unsolved)] }, e.solutions.length)

end MetaEnv

/-- A mutating operation on the metavariable environment. -/
inductive MetaOp (α : Type) where
  | addUnsolved (span : FileSpan)
  | addSolved (index : Nat) (value : α)

/-- Run a sequence of metavariable operations; a failing `add_solved`
(which aborts the Rust program) yields `none`. -/
def runMetaOps {α : Type} : MetaEnv α → List (MetaOp α) → Option (MetaEnv α)
  | e, [] => some e
  | e, .addUnsolved span :: ops => runMetaOps (e.addUnsolved span).1 ops
  | e, .addSolved index value :: ops =>
      match e.addSolved index value with
      | some e' => runMetaOps e' ops
      | none => none

/-- A context-building operation (`validate.rs`): add a definition or add
a parameter. -/
inductive CtxOp where
  | addDefn (value ty : Value)
  | addParam (ty : Value)

/-- Apply a context operation. -/
def applyCtxOp (ctx : Context) : CtxOp → Context
  | .addDefn value ty => ctx.addDefn value ty
  | .addParam ty => (ctx.addParam ty).1

/-- Apply a sequence of context operations, oldest first. -/
def applyCtxOps (ctx : Context) : List CtxOp → Context
  | [] => ctx
  | op :: ops => applyCtxOps (applyCtxOp ctx op) ops

/-! ## List index helpers -/

theorem listGetQ_set_self {β : Type} (l : List β) (i : Nat) (a : β) (h : i < l.length) :
    (l.set i a).get? i = some a := by
  induction l generalizing i with
  | nil => simp at h
  | cons x xs ih =>
      cases i with
      | zero => rfl
      | succ j => exact ih j (Nat.lt_of_succ_lt_succ h)

theorem listGetQ_set_ne {β : Type} (l : List β) (i j : Nat) (a : β) (h : i ≠ j) :
    (l.set i a).get? j = l.get? j := by
  induction l generalizing i j with
  | nil => rfl
  | cons x xs ih =>
      cases i with
      | zero =>
          cases j with
          | zero => exact absurd rfl h
          | succ j' => rfl
      | succ i' =>
          cases j with
          | zero => rfl
          | succ j' => simpa using ih i' j' (by omega)

theorem listGetQ_append_lt {β : Type} (l l' : List β) (i : Nat) (h : i < l.length) :
    (l ++ l').get? i = l.get? i := by
  induction l generalizing i with
  | nil => simp at h
  | cons x xs ih =>
      cases i with
      | zero => rfl
      | succ j => exact ih j (Nat.lt_of_succ_lt_succ h)

theorem listGetQ_none_iff {β : Type} (l : List β) (i : Nat) :
    l.get? i = none ↔ l.length ≤ i := by
  induction l generalizing i with
  | nil => simp
  | cons x xs ih =>
      cases i with
      | zero => simp
      | succ j =>
          show xs.get? j = none ↔ xs.length + 1 ≤ j + 1
          rw [ih j]
          omega

theorem listGetQ_lt {β : Type} (l : List β) (i : Nat) (h : i < l.length) :
    l.get? i = some (l.get ⟨i, h⟩) := by
  induction l generalizing i with
  | nil => simp at h
  | cons x xs ih =>
      cases i with
      | zero => rfl
      | succ j => exact ih j (Nat.lt_of_succ_lt_succ h)

/-! ## Claims about the metavariable environment (`meta.rs`) -/

/-- **C10.** `lookup_solution` is total and never panics: for every
metavariable environment and index `i`, it returns `None` exactly when `i`
is at least the number of slots allocated so far, and otherwise `Some` of
the slot's origin span and current solution state. -/
theorem claim_c10_lookup_solution_total {α : Type} (e : MetaEnv α) (index : Nat) :
    (e.lookupSolution index = none ↔ e.solutions.length ≤ index) ∧
    (∀ h : index < e.solutions.length,
        e.lookupSolution index = some (e.solutions.get ⟨index, h⟩)) := by
  refine ⟨?_, ?_⟩
  · exact listGetQ_none_iff e.solutions index
  · intro h
    exact listGetQ_lt e.solutions index h

/-- Witness for C10, at a one-slot environment. -/
theorem claim_c10_witness :
    MetaEnv.lookupSolution (α := Nat) { solutions := [(⟨0, 0, 1⟩, Solution.unsolved)] } 0
      = some (⟨0, 0, 1⟩, Solution.unsolved) :=
  (claim_c10_lookup_solution_total (α := Nat)
    { solutions := [(⟨0, 0, 1⟩, Solution.unsolved)] } 0).2 (by decide)

/-- A solved slot survives any successful run of further metavariable
operations: `add_unsolved` only appends, and `add_solved` only succeeds on
a (different, because unsolved) slot. -/
theorem runMetaOps_preserves_solved {α : Type} (ops : List (MetaOp α))
    (e e' : MetaEnv α) (index : Nat) (span : FileSpan) (v : α)
    (hsol : e.lookupSolution index = some (span, .solved v))
    (hrun : runMetaOps e ops = some e') :
    e'.lookupSolution index = some (span, .solved v) := by
  induction ops generalizing e with
  | nil =>
      have hrun' : some e = some e' := hrun
      injection hrun' with h
      exact h ▸ hsol
  | cons op ops ih =>
      have hsol' : e.solutions.get? index = some (span, Solution.solved v) := hsol
      have hlt : index < e.solutions.length := by
        by_contra hge
        have hnone : e.solutions.get? index = none :=
          (listGetQ_none_iff e.solutions index).2 (Nat.le_of_not_lt hge)
        rw [hnone] at hsol'
        exact Option.noConfusion hsol'
      cases op with
      | addUnsolved sp =>
          have hrun' : runMetaOps (e.addUnsolved sp).1 ops = some e' := hrun
          refine ih (e.addUnsolved sp).1 ?_ hrun'
          show (e.solutions ++ [(sp, Solution.unsolved)]).get? index = _
          rw [listGetQ_append_lt e.solutions _ index hlt]
          exact hsol'
      | addSolved j w =>
          have hrun' :
              (match e.addSolved j w with
                | some e₁ => runMetaOps e₁ ops
                | none => none) = some e' := hrun
          cases haddq : e.addSolved j w with
          | none => rw [haddq] at hrun'; exact Option.noConfusion hrun'
          | some e₁ =>
              rw [haddq] at hrun'
              refine ih e₁ ?_ hrun'
              have haddq' :
                  (match e.solutions.get? j with
                    | some (sp, Solution.unsolved) =>
                        some (MetaEnv.mk (e.solutions.set j (sp, Solution.solved w)))
                    | some (_, Solution.solved _) => none
                    | none => none) = some e₁ := haddq
              cases hj : e.solutions.get? j with
              | none => rw [hj] at haddq'; exact Option.noConfusion haddq'
              | some entry =>
                  obtain ⟨spj, solj⟩ := entry
                  cases solj with
                  | solved _ => rw [hj] at haddq'; exact Option.noConfusion haddq'
                  | unsolved =>
                      rw [hj] at haddq'
                      have hne : j ≠ index := by
                        intro hji
                        rw [hji, hsol'] at hj
                        exact Solution.noConfusion
                          (congrArg Prod.snd (Option.some.inj hj))
                      have he₁ : e₁ = MetaEnv.mk (e.solutions.set j (spj, Solution.solved w)) :=
                        (Option.some.inj haddq').symm
                      show e₁.solutions.get? index = _
                      rw [he₁]
                      show (e.solutions.set j (spj, Solution.solved w)).get? index = _
                      rw [listGetQ_set_ne e.solutions j index _ hne]
                      exact hsol'

/-- **C3.** The metavariable environment is monotone: `add_solved(i, v)`
succeeds exactly when slot `i` exists and is `Unsolved` (double-solving or
solving an unallocated slot is a fatal internal error, modelled as `none`),
and once it succeeds, every subsequent `lookup_solution(i)` — after any
further successful operations — returns `Solved(v)`; a solution is never
overwritten. -/
theorem claim_c3_meta_env_monotone {α : Type} (e : MetaEnv α) (index : Nat) (v : α) :
    ((e.addSolved index v).isSome ↔
      ∃ span, e.lookupSolution index = some (span, .unsolved)) ∧
    (∀ e₁ ops e₂, e.addSolved index v = some e₁ → runMetaOps e₁ ops = some e₂ →
      ∃ span, e₂.lookupSolution index = some (span, .solved v)) := by
  constructor
  · show (match e.solutions.get? index with
        | some (sp, Solution.unsolved) =>
            some (MetaEnv.mk (e.solutions.set index (sp, Solution.solved v)))
        | some (_, Solution.solved _) => none
        | none => none).isSome ↔
      ∃ span, e.solutions.get? index = some (span, Solution.unsolved)
    cases hj : e.solutions.get? index with
    | none => simp
    | some entry =>
        obtain ⟨sp, sol⟩ := entry
        cases sol with
        | unsolved => simp
        | solved w => simp
  · intro e₁ ops e₂ hadd hrun
    have hadd' :
        (match e.solutions.get? index with
          | some (sp, Solution.unsolved) =>
              some (MetaEnv.mk (e.solutions.set index (sp, Solution.solved v)))
          | some (_, Solution.solved _) => none
          | none => none) = some e₁ := hadd
    cases hj : e.solutions.get? index with
    | none => rw [hj] at hadd'; exact Option.noConfusion hadd'
    | some entry =>
        obtain ⟨sp, sol⟩ := entry
        cases sol with
        | solved _ => rw [hj] at hadd'; exact Option.noConfusion hadd'
        | unsolved =>
            rw [hj] at hadd'
            have hlt : index < e.solutions.length := by
              by_contra hge
              have hnone : e.solutions.get? index = none :=
                (listGetQ_none_iff e.solutions index).2 (Nat.le_of_not_lt hge)
              rw [hnone] at hj
              exact Option.noConfusion hj
            have he₁ : e₁ = MetaEnv.mk (e.solutions.set index (sp, Solution.solved v)) :=
              (Option.some.inj hadd').symm
            have h₁ : e₁.lookupSolution index = some (sp, Solution.solved v) := by
              show e₁.solutions.get? index = _
              rw [he₁]
              show (e.solutions.set index (sp, Solution.solved v)).get? index = _
              exact listGetQ_set_self e.solutions index _ hlt
            exact ⟨sp, runMetaOps_preserves_solved ops e₁ e₂ index sp v h₁ hrun⟩

/-- Witness for C3: solve slot 0, run further operations, and observe the
solution still in place. -/
theorem claim_c3_witness :
    ∃ span, MetaEnv.lookupSolution (α := Nat)
      { solutions := [(⟨0, 0, 1⟩, Solution.solved 42), (⟨0, 2, 3⟩, Solution.unsolved),
                      (⟨0, 4, 5⟩, Solution.solved 7)] } 0
      = some (span, Solution.solved 42) :=
  (claim_c3_meta_env_monotone (α := Nat)
      { solutions := [(⟨0, 0, 1⟩, Solution.unsolved), (⟨0, 2, 3⟩, Solution.unsolved)] }
      0 42).2
    { solutions := [(⟨0, 0, 1⟩, Solution.solved 42), (⟨0, 2, 3⟩, Solution.unsolved)] }
    [.addUnsolved ⟨0, 4, 5⟩, .addSolved 2 7]
    _ rfl rfl

/-! ## Claims about the context (`validate.rs`, `Context`) -/

/-- **C9.** Every context maintains `len(env) == len(types)`:
`Context::new` creates both sequences empty, `add_defn` and `add_param`
each push exactly one entry onto both the value environment and the
parallel type sequence, and so the lengths stay equal after every sequence
of context operations. -/
theorem claim_c9_context_lengths_equal :
    (Context.new.values.length = 0 ∧ Context.new.tys.length = 0) ∧
    (∀ ctx op, (applyCtxOp ctx op).values.length = ctx.values.length + 1 ∧
      (applyCtxOp ctx op).tys.length = ctx.tys.length + 1) ∧
    (∀ ops, (applyCtxOps Context.new ops).values.length
      = (applyCtxOps Context.new ops).tys.length) := by
  have step : ∀ ctx op, (applyCtxOp ctx op).values.length = ctx.values.length + 1 ∧
      (applyCtxOp ctx op).tys.length = ctx.tys.length + 1 := by
    intro ctx op
    cases op with
    | addDefn value ty => exact ⟨rfl, rfl⟩
    | addParam ty => exact ⟨rfl, rfl⟩
  refine ⟨⟨rfl, rfl⟩, step, ?_⟩
  have aux : ∀ ops ctx, ctx.values.length = ctx.tys.length →
      (applyCtxOps ctx ops).values.length = (applyCtxOps ctx ops).tys.length := by
    intro ops
    induction ops with
    | nil => intro ctx h; exact h
    | cons op ops ih =>
        intro ctx h
        refine ih (applyCtxOp ctx op) ?_
        rw [(step ctx op).1, (step ctx op).2, h]
  exact fun ops => aux ops Context.new rfl

/-! ## Claims about primitives in the validator -/

/-- **C7.** For a primitive term, `synth_term` reports `UnknownPrim` when
the name is not registered and `AmbiguousTerm` otherwise (never a type),
while `check_term` succeeds against *every* expected type when the name is
registered and reports `UnknownPrim` when it is not. -/
theorem claim_c7_prim_check_synth (fuel : Nat) (ctx : Context) (name : String) :
    (lookupEntry ctx.prims name = none →
      (∀ expectedTy, checkTerm (fuel + 1) ctx (.prim name) expectedTy
        = .err (.unknownPrim name)) ∧
      synthTerm (fuel + 1) ctx (.prim name) = .err (.unknownPrim name)) ∧
    (∀ entry, lookupEntry ctx.prims name = some entry →
      (∀ expectedTy, checkTerm (fuel + 1) ctx (.prim name) expectedTy = .ok ()) ∧
      synthTerm (fuel + 1) ctx (.prim name) = .err (.ambiguousTerm (.prim name))) := by
  constructor
  · intro hnone
    constructor
    · intro expectedTy
      simp only [checkTerm, hnone]
    · simp only [synthTerm, hnone]
  · intro entry hsome
    constructor
    · intro expectedTy
      simp only [checkTerm, hsome]
    · simp only [synthTerm, hsome]

/-- A one-entry primitive environment used by the C7 witness. -/
def primWitnessCtx : Context :=
  { prims := [("bool", { value := Value.literalType .bool, reducer := none })]
    values := []
    tys := [] }

/-- Witness for C7: a one-entry primitive environment. -/
theorem claim_c7_witness :
    (checkTerm 1 primWitnessCtx (.prim "bool") (.universe 0) = .ok ()) ∧
    (synthTerm 1 primWitnessCtx (.prim "bool") = .err (.ambiguousTerm (.prim "bool"))) ∧
    (checkTerm 1 primWitnessCtx (.prim "nope") (.universe 0) = .err (.unknownPrim "nope")) ∧
    (synthTerm 1 primWitnessCtx (.prim "nope") = .err (.unknownPrim "nope")) :=
  ⟨((claim_c7_prim_check_synth 0 primWitnessCtx "bool").2
      { value := Value.literalType .bool, reducer := none } rfl).1 _,
   ((claim_c7_prim_check_synth 0 primWitnessCtx "bool").2
      { value := Value.literalType .bool, reducer := none } rfl).2,
   ((claim_c7_prim_check_synth 0 primWitnessCtx "nope").1 rfl).1 _,
   ((claim_c7_prim_check_synth 0 primWitnessCtx "nope").1 rfl).2⟩

/-! ## Claims about application modes -/

/-- **C4.** Application modes are matched by exact equality and never
coerced: checking a function intro against a function type, and
synthesizing a function elimination whose head synthesizes a function
type, both fail with `UnexpectedAppMode{found, expected}` whenever the
term's mode differs from the type's mode, and proceed (with the body
check, resp. the argument check and closure application) exactly when the
modes are equal. -/
theorem claim_c4_app_mode_exact (fuel : Nat) (ctx : Context) (mode tyMode : AppMode) :
    (mode ≠ tyMode → ∀ body paramTy bodyTy,
      checkTerm (fuel + 1) ctx (.funIntro mode body) (.funType tyMode paramTy bodyTy)
        = .err (.unexpectedAppMode mode tyMode)) ∧
    (∀ body paramTy bodyTy,
      checkTerm (fuel + 1) ctx (.funIntro mode body) (.funType mode paramTy bodyTy)
        = match liftNbe (ctx.doClosureApp fuel bodyTy (ctx.addParam paramTy).2) with
          | .ok bodyTyValue => checkTerm fuel (ctx.addParam paramTy).1 body bodyTyValue
          | .err e => .err e
          | .timeout => .timeout) ∧
    (mode ≠ tyMode → ∀ fn arg argTy bodyTy,
      synthTerm fuel ctx fn = .ok (.funType tyMode argTy bodyTy) →
      synthTerm (fuel + 1) ctx (.funElim fn mode arg)
        = .err (.unexpectedAppMode mode tyMode)) ∧
    (∀ fn arg argTy bodyTy,
      synthTerm fuel ctx fn = .ok (.funType mode argTy bodyTy) →
      synthTerm (fuel + 1) ctx (.funElim fn mode arg)
        = match checkTerm fuel ctx arg argTy with
          | .ok _ =>
            match liftNbe (ctx.eval fuel arg) with
            | .ok argValue => liftNbe (ctx.doClosureApp fuel bodyTy argValue)
            | .err e => .err e
            | .timeout => .timeout
          | .err e => .err e
          | .timeout => .timeout) := by
  refine ⟨?_, ?_, ?_, ?_⟩
  · intro hne body paramTy bodyTy
    simp only [checkTerm, if_neg hne]
  · intro body paramTy bodyTy
    simp only [checkTerm, if_pos rfl, if_true]
  · intro hne fn arg argTy bodyTy hsyn
    simp only [synthTerm, hsyn, if_neg hne]
  · intro fn arg argTy bodyTy hsyn
    simp only [synthTerm, hsyn, if_pos rfl, if_true]

/-- A context with one entry of function type, used by the C4 and C5
witnesses. -/
def funWitnessCtx : Context :=
  { prims := []
    values := [Value.neutral (.var 0)]
    tys := [Value.funType .explicit (.literalType .bool) (.mk (.literalType .bool) [])] }

/-- Witness for C4: a mode mismatch is rejected on both sides; matching
modes proceed to a successful check. -/
theorem claim_c4_witness :
    (checkTerm 10 Context.new (.funIntro (.implicit "x") (.var 0))
        (.funType .explicit (.literalType .bool) (.mk (.literalType .bool) []))
      = .err (.unexpectedAppMode (.implicit "x") .explicit)) ∧
    (synthTerm 10 funWitnessCtx (.funElim (.var 0) (.implicit "x") (.literalIntro (.bool true)))
      = .err (.unexpectedAppMode (.implicit "x") .explicit)) ∧
    (checkTerm 10 Context.new (.funIntro .explicit (.var 0))
        (.funType .explicit (.literalType .bool) (.mk (.literalType .bool) []))
      = .ok ()) ∧
    (synthTerm 10 funWitnessCtx (.funElim (.var 0) .explicit (.literalIntro (.bool true)))
      = .ok (.literalType .bool)) :=
  ⟨(claim_c4_app_mode_exact 9 Context.new (.implicit "x") .explicit).1
      (fun h => AppMode.noConfusion h) _ _ _,
   (claim_c4_app_mode_exact 9 funWitnessCtx (.implicit "x") .explicit).2.2.1
      (fun h => AppMode.noConfusion h) _ _ _ _ rfl,
   Eq.trans ((claim_c4_app_mode_exact 9 Context.new .explicit .explicit).2.1
      (.var 0) (.literalType .bool) (.mk (.literalType .bool) [])) rfl,
   Eq.trans ((claim_c4_app_mode_exact 9 funWitnessCtx .explicit .explicit).2.2.2
      (.var 0) (.literalIntro (.bool true)) (.literalType .bool)
      (.mk (.literalType .bool) []) rfl) rfl⟩

/-! ## Claims about function types -/

/-- **C8.** Synthesizing a function type first requires the domain to
synthesize a universe at some level `i` (`ExpectedUniverse` otherwise),
then, in the context extended with a parameter of the evaluated domain,
requires the codomain to synthesize a universe at some level `j`, and
returns `Universe(max(i, j))`. -/
theorem claim_c8_fun_type_universe (fuel : Nat) (ctx : Context) (mode : AppMode)
    (paramTy bodyTy : Term) :
    (∀ i paramTyValue j,
      synthUniverse (fuel + 1) ctx paramTy = .ok i →
      ctx.eval (fuel + 1) paramTy = .ok paramTyValue →
      synthUniverse (fuel + 1) (ctx.addParam paramTyValue).1 bodyTy = .ok j →
      synthTerm (fuel + 2) ctx (.funType mode paramTy bodyTy)
        = .ok (.universe (max i j))) ∧
    (∀ ty, synthTerm fuel ctx paramTy = .ok ty → (∀ l, ty ≠ .universe l) →
      synthTerm (fuel + 2) ctx (.funType mode paramTy bodyTy)
        = .err (.expectedUniverse ty)) ∧
    (∀ t ty, synthTerm fuel ctx t = .ok ty →
      synthUniverse (fuel + 1) ctx t
        = match ty with
          | .universe l => .ok l
          | _ => .err (.expectedUniverse ty)) := by
  refine ⟨?_, ?_, ?_⟩
  · intro i paramTyValue j h1 h2 h3
    simp only [synthTerm, h1, h2, h3, liftNbe]
  · intro ty hty hnotu
    have hsu : synthUniverse (fuel + 1) ctx paramTy = .err (.expectedUniverse ty) := by
      cases ty
      case «universe» l => exact absurd rfl (hnotu l)
      all_goals simp only [synthUniverse, hty]
    simp only [synthTerm, hsu]
  · intro t ty hty
    cases ty <;> simp only [synthUniverse, hty]

/-- Witness for C8: `Π (x : U₀). U₀` synthesizes `U₁`, and a non-universe
domain is rejected with `ExpectedUniverse`. -/
theorem claim_c8_witness :
    (synthTerm 10 Context.new (.funType .explicit (.universe 0) (.universe 0))
      = .ok (.universe 1)) ∧
    (synthTerm 10 Context.new (.funType .explicit (.literalIntro (.bool true)) (.universe 0))
      = .err (.expectedUniverse (.literalType .bool))) ∧
    (synthUniverse 9 Context.new (.literalType .bool) = .ok 0) :=
  ⟨(claim_c8_fun_type_universe 8 Context.new .explicit (.universe 0) (.universe 0)).1
      1 (.universe 0) 1 rfl rfl rfl,
   (claim_c8_fun_type_universe 8 Context.new .explicit
      (.literalIntro (.bool true)) (.universe 0)).2.1 (.literalType .bool) rfl
      (fun _ h => Value.noConfusion h),
   Eq.trans ((claim_c8_fun_type_universe 8 Context.new .explicit (.universe 0)
      (.universe 0)).2.2 (.literalType .bool) (.universe 0) rfl) rfl⟩

/-! ## Claims about records in the validator -/

/-- **C5.** Synthesizing a record elimination synthesizes the head's
record type and walks it field by field: a mismatched label applies the
rest closure to the evaluation of a synthetic projection of that field's
label through the original subject term; the requested label returns its
field type; a walk that ends without finding the label reports
`NoFieldInType(label)`. -/
theorem claim_c5_record_elim_walk (fuel : Nat) (ctx : Context) (record : Term)
    (label : String) :
    (∀ recordTy, synthTerm fuel ctx record = .ok recordTy →
      synthTerm (fuel + 1) ctx (.recordElim record label)
        = recordElimWalk fuel ctx record label recordTy) ∧
    (∀ doc fieldTy rest,
      recordElimWalk (fuel + 1) ctx record label (.recordTypeExtend doc label fieldTy rest)
        = .ok fieldTy) ∧
    (∀ doc currentLabel fieldTy rest, label ≠ currentLabel →
      recordElimWalk (fuel + 1) ctx record label
          (.recordTypeExtend doc currentLabel fieldTy rest)
        = match liftNbe (ctx.eval fuel (.recordElim record currentLabel)) with
          | .ok exprValue =>
            match liftNbe (ctx.doClosureApp fuel rest exprValue) with
            | .ok recordTy' => recordElimWalk fuel ctx record label recordTy'
            | .err e => .err e
            | .timeout => .timeout
          | .err e => .err e
          | .timeout => .timeout) ∧
    (∀ recordTy, (∀ doc l fieldTy rest, recordTy ≠ .recordTypeExtend doc l fieldTy rest) →
      recordElimWalk (fuel + 1) ctx record label recordTy
        = .err (.noFieldInType label)) := by
  refine ⟨?_, ?_, ?_, ?_⟩
  · intro recordTy h
    simp only [synthTerm, h]
  · intro doc fieldTy rest
    simp only [recordElimWalk, if_pos rfl, if_true]
  · intro doc currentLabel fieldTy rest hne
    simp only [recordElimWalk, if_neg hne]
  · intro recordTy hne
    cases recordTy
    case recordTypeExtend doc l fieldTy rest => exact absurd rfl (hne doc l fieldTy rest)
    all_goals simp only [recordElimWalk]

/-- A context whose sole entry has the dependent record type
`{x : U₀, y : x}`, used by the C5 witness (the record-projection scenario
of the spec, §8). -/
def recordWitnessCtx : Context :=
  { prims := []
    values := [Value.neutral (.var 0)]
    tys := [Value.recordTypeExtend "" "x" (.universe 0)
              (.mk (.recordType [("", "y", .var 0)]) [])] }

/-- Witness for C5: projecting `y` out of `r : {x : U₀, y : x}` returns
the projection of `x` through the original subject (not a free variable),
and a missing label reports `NoFieldInType`. -/
theorem claim_c5_witness :
    (synthTerm 10 recordWitnessCtx (.recordElim (.var 0) "y")
      = .ok (.neutral (.recordElim (.var 0) "x"))) ∧
    (recordElimWalk 10 recordWitnessCtx (.var 0) "x"
        (.recordTypeExtend "" "x" (.universe 0) (.mk (.recordType [("", "y", .var 0)]) []))
      = .ok (.universe 0)) ∧
    (recordElimWalk 10 recordWitnessCtx (.var 0) "z" .recordTypeEmpty
      = .err (.noFieldInType "z")) :=
  ⟨Eq.trans ((claim_c5_record_elim_walk 9 recordWitnessCtx (.var 0) "y").1
      (.recordTypeExtend "" "x" (.universe 0) (.mk (.recordType [("", "y", .var 0)]) []))
      rfl) rfl,
   (claim_c5_record_elim_walk 9 recordWitnessCtx (.var 0) "x").2.1 ""
      (.universe 0) (.mk (.recordType [("", "y", .var 0)]) []),
   (claim_c5_record_elim_walk 9 recordWitnessCtx (.var 0) "z").2.2.2 .recordTypeEmpty
      (fun _ _ _ _ h => Value.noConfusion h)⟩

/-- **C6.** Checking a record intro against a record type walks the
expected type in declared order with no reordering: the first label
mismatch reports `UnexpectedField{found, expected}`; a remaining intro
field against a non-extension type reports `TooManyFieldsFound`; a
remaining expected extension after the last intro field reports
`NotEnoughFieldsProvided`; otherwise each field term is checked against
its field type, its value is added to the context as a definition, and the
rest closure is opened with that value. -/
theorem claim_c6_record_intro_check (fuel : Nat) (ctx : Context) :
    (∀ introFields expectedTy,
      checkTerm (fuel + 1) ctx (.recordIntro introFields) expectedTy
        = checkRecordIntroFields fuel ctx introFields expectedTy) ∧
    (∀ label term rest doc expectedLabel expectedTermTy restClosure, label ≠ expectedLabel →
      checkRecordIntroFields (fuel + 1) ctx ((label, term) :: rest)
          (.recordTypeExtend doc expectedLabel expectedTermTy restClosure)
        = .err (.unexpectedField label expectedLabel)) ∧
    (∀ term rest doc expectedLabel expectedTermTy restClosure,
      checkRecordIntroFields (fuel + 1) ctx ((expectedLabel, term) :: rest)
          (.recordTypeExtend doc expectedLabel expectedTermTy restClosure)
        = match checkTerm fuel ctx term expectedTermTy with
          | .ok _ =>
            match liftNbe (ctx.eval fuel term) with
            | .ok termValue =>
              match liftNbe ((ctx.addDefn termValue expectedTermTy).doClosureApp fuel
                  restClosure termValue) with
              | .ok expectedTy' =>
                  checkRecordIntroFields fuel (ctx.addDefn termValue expectedTermTy)
                    rest expectedTy'
              | .err e => .err e
              | .timeout => .timeout
            | .err e => .err e
            | .timeout => .timeout
          | .err e => .err e
          | .timeout => .timeout) ∧
    (∀ label term rest expectedTy,
      (∀ doc l fieldTy restClosure, expectedTy ≠ .recordTypeExtend doc l fieldTy restClosure) →
      checkRecordIntroFields (fuel + 1) ctx ((label, term) :: rest) expectedTy
        = .err .tooManyFieldsFound) ∧
    (checkRecordIntroFields (fuel + 1) ctx [] .recordTypeEmpty = .ok ()) ∧
    (∀ expectedTy, expectedTy ≠ .recordTypeEmpty →
      checkRecordIntroFields (fuel + 1) ctx [] expectedTy
        = .err .notEnoughFieldsProvided) := by
  refine ⟨?_, ?_, ?_, ?_, ?_, ?_⟩
  · intro introFields expectedTy
    simp only [checkTerm]
  · intro label term rest doc expectedLabel expectedTermTy restClosure hne
    simp only [checkRecordIntroFields, if_neg hne]
  · intro term rest doc expectedLabel expectedTermTy restClosure
    simp only [checkRecordIntroFields, if_pos rfl, if_true]
  · intro label term rest expectedTy hne
    cases expectedTy
    case recordTypeExtend doc l fieldTy restClosure => exact absurd rfl (hne doc l fieldTy restClosure)
    all_goals simp only [checkRecordIntroFields]
  · simp only [checkRecordIntroFields]
  · intro expectedTy hne
    cases expectedTy
    case recordTypeEmpty => exact absurd rfl hne
    all_goals simp only [checkRecordIntroFields]

/-- The record type `{x : Bool}` as a value, used by the C6 witness. -/
def recordTyBool : Value :=
  .recordTypeExtend "" "x" (.literalType .bool) (.mk (.recordType []) [])

/-- Witness for C6: `{x = true}` checks against `{x : Bool}`; a wrong
label, an extra field, and a missing field produce the three respective
errors. -/
theorem claim_c6_witness :
    (checkTerm 10 Context.new (.recordIntro [("x", .literalIntro (.bool true))]) recordTyBool
      = .ok ()) ∧
    (checkRecordIntroFields 10 Context.new [("y", .literalIntro (.bool true))] recordTyBool
      = .err (.unexpectedField "y" "x")) ∧
    (checkRecordIntroFields 10 Context.new [("x", .literalIntro (.bool true))] .recordTypeEmpty
      = .err .tooManyFieldsFound) ∧
    (checkRecordIntroFields 10 Context.new [] recordTyBool
      = .err .notEnoughFieldsProvided) :=
  ⟨Eq.trans ((claim_c6_record_intro_check 9 Context.new).1
      [("x", .literalIntro (.bool true))] recordTyBool) rfl,
   (claim_c6_record_intro_check 9 Context.new).2.1 "y" (.literalIntro (.bool true)) [] ""
      "x" (.literalType .bool) (.mk (.recordType []) []) (by decide),
   (claim_c6_record_intro_check 9 Context.new).2.2.2.1 "x" (.literalIntro (.bool true)) []
      .recordTypeEmpty (fun _ _ _ _ h => Value.noConfusion h),
   (claim_c6_record_intro_check 9 Context.new).2.2.2.2.2 recordTyBool
      (fun h => Value.noConfusion h)⟩

/-! ## Soundness of `BadLiteralPatterns` errors

Any `BadLiteralPatterns` error produced anywhere in the validator lists a
pattern table on which the sortedness guard fired — i.e. a table that is
*not* strictly ascending.  This justifies the "only if" direction of the
claims about the literal-pattern check. -/

/-- A validator result never reports `BadLiteralPatterns` with a table the
guard accepts. -/
def NoBad {α : Type} (x : Res TypeError α) : Prop :=
  ∀ ps, x = .err (.badLiteralPatterns ps) → badPats ps = true

theorem noBad_liftNbe {α : Type} (x : Res NbeError α) : NoBad (liftNbe x) := by
  intro ps h
  cases x with
  | ok a => exact Res.noConfusion h
  | err e => exact TypeError.noConfusion (Res.err.inj h)
  | timeout => exact Res.noConfusion h

theorem noBad_expectSubtype (ctx : Context) (fuel : Nat) (ty1 ty2 : Value) :
    NoBad (ctx.expectSubtype fuel ty1 ty2) := by
  intro ps h
  unfold Context.expectSubtype at h
  split at h
  · exact Res.noConfusion h
  · exact TypeError.noConfusion (Res.err.inj h)
  · exact TypeError.noConfusion (Res.err.inj h)
  · exact Res.noConfusion h

theorem noBad_checkLiteral (fuel : Nat) (ctx : Context) (lit : LiteralIntro)
    (expectedTy : Value) : NoBad (checkLiteral fuel ctx lit expectedTy) :=
  noBad_expectSubtype ctx fuel (synthLiteral lit) expectedTy

/-- Every `BadLiteralPatterns` error raised by the validator lists a table
on which the sortedness guard fired. -/
theorem validator_noBad : ∀ fuel : Nat,
    (∀ ctx t expectedTy, NoBad (checkTerm fuel ctx t expectedTy)) ∧
    (∀ ctx cls scrutineeTy expectedTy,
      NoBad (checkClauses fuel ctx cls scrutineeTy expectedTy)) ∧
    (∀ ctx fields expectedTy, NoBad (checkRecordIntroFields fuel ctx fields expectedTy)) ∧
    (∀ ctx t, NoBad (synthUniverse fuel ctx t)) ∧
    (∀ ctx t, NoBad (synthTerm fuel ctx t)) ∧
    (∀ ctx fields maxLevel, NoBad (synthRecordTypeFields fuel ctx fields maxLevel)) ∧
    (∀ ctx record label recordTy, NoBad (recordElimWalk fuel ctx record label recordTy)) := by
  intro fuel
  induction fuel with
  | zero =>
      refine ⟨?_, ?_, ?_, ?_, ?_, ?_, ?_⟩ <;> intros <;> intro ps h <;>
        simp only [checkTerm, checkClauses, checkRecordIntroFields, synthUniverse,
          synthTerm, synthRecordTypeFields, recordElimWalk] at h <;>
        exact Res.noConfusion h
  | succ fuel ih =>
      obtain ⟨ihC, ihCl, ihRF, ihU, ihS, ihRT, ihW⟩ := ih
      refine ⟨?_, ?_, ?_, ?_, ?_, ?_, ?_⟩
      · -- checkTerm
        intro ctx t expectedTy ps h
        cases t <;> simp only [checkTerm] at h <;> repeat' split at h
        all_goals
          first
          | exact Res.noConfusion h
          | exact TypeError.noConfusion (Res.err.inj h)
          | exact ihC _ _ _ _ h
          | exact ihCl _ _ _ _ _ h
          | exact ihRF _ _ _ _ h
          | exact ihU _ _ _ h
          | exact ihS _ _ _ h
          | exact ihRT _ _ _ _ h
          | exact ihW _ _ _ _ _ h
          | exact noBad_liftNbe _ _ h
          | exact noBad_expectSubtype _ _ _ _ _ h
          | exact noBad_checkLiteral _ _ _ _ _ h
          | (rw [← TypeError.badLiteralPatterns.inj (Res.err.inj h)]; assumption)
          | (injection h with h2
             subst h2
             first
             | exact ihC _ _ _ _ (by assumption)
             | exact ihCl _ _ _ _ _ (by assumption)
             | exact ihRF _ _ _ _ (by assumption)
             | exact ihU _ _ _ (by assumption)
             | exact ihS _ _ _ (by assumption)
             | exact ihRT _ _ _ _ (by assumption)
             | exact ihW _ _ _ _ _ (by assumption)
             | exact noBad_liftNbe _ _ (by assumption)
             | exact noBad_expectSubtype _ _ _ _ _ (by assumption)
             | exact noBad_checkLiteral _ _ _ _ _ (by assumption))
      · -- checkClauses
        intro ctx cls scrutineeTy expectedTy ps h
        cases cls with
        | nil => simp only [checkClauses] at h; exact Res.noConfusion h
        | cons c rest =>
            obtain ⟨lit, body⟩ := c
            simp only [checkClauses] at h
            repeat' split at h
            all_goals
              first
          | exact Res.noConfusion h
          | exact TypeError.noConfusion (Res.err.inj h)
          | exact ihC _ _ _ _ h
          | exact ihCl _ _ _ _ _ h
          | exact ihRF _ _ _ _ h
          | exact ihU _ _ _ h
          | exact ihS _ _ _ h
          | exact ihRT _ _ _ _ h
          | exact ihW _ _ _ _ _ h
          | exact noBad_liftNbe _ _ h
          | exact noBad_expectSubtype _ _ _ _ _ h
          | exact noBad_checkLiteral _ _ _ _ _ h
          | (rw [← TypeError.badLiteralPatterns.inj (Res.err.inj h)]; assumption)
          | (injection h with h2
             subst h2
             first
             | exact ihC _ _ _ _ (by assumption)
             | exact ihCl _ _ _ _ _ (by assumption)
             | exact ihRF _ _ _ _ (by assumption)
             | exact ihU _ _ _ (by assumption)
             | exact ihS _ _ _ (by assumption)
             | exact ihRT _ _ _ _ (by assumption)
             | exact ihW _ _ _ _ _ (by assumption)
             | exact noBad_liftNbe _ _ (by assumption)
             | exact noBad_expectSubtype _ _ _ _ _ (by assumption)
             | exact noBad_checkLiteral _ _ _ _ _ (by assumption))
      · -- checkRecordIntroFields
        intro ctx fields expectedTy ps h
        cases fields with
        | nil =>
            simp only [checkRecordIntroFields] at h
            repeat' split at h
            all_goals
              first
          | exact Res.noConfusion h
          | exact TypeError.noConfusion (Res.err.inj h)
          | exact ihC _ _ _ _ h
          | exact ihCl _ _ _ _ _ h
          | exact ihRF _ _ _ _ h
          | exact ihU _ _ _ h
          | exact ihS _ _ _ h
          | exact ihRT _ _ _ _ h
          | exact ihW _ _ _ _ _ h
          | exact noBad_liftNbe _ _ h
          | exact noBad_expectSubtype _ _ _ _ _ h
          | exact noBad_checkLiteral _ _ _ _ _ h
          | (rw [← TypeError.badLiteralPatterns.inj (Res.err.inj h)]; assumption)
          | (injection h with h2
             subst h2
             first
             | exact ihC _ _ _ _ (by assumption)
             | exact ihCl _ _ _ _ _ (by assumption)
             | exact ihRF _ _ _ _ (by assumption)
             | exact ihU _ _ _ (by assumption)
             | exact ihS _ _ _ (by assumption)
             | exact ihRT _ _ _ _ (by assumption)
             | exact ihW _ _ _ _ _ (by assumption)
             | exact noBad_liftNbe _ _ (by assumption)
             | exact noBad_expectSubtype _ _ _ _ _ (by assumption)
             | exact noBad_checkLiteral _ _ _ _ _ (by assumption))
        | cons f rest =>
            obtain ⟨label, term⟩ := f
            simp only [checkRecordIntroFields] at h
            repeat' split at h
            all_goals
              first
          | exact Res.noConfusion h
          | exact TypeError.noConfusion (Res.err.inj h)
          | exact ihC _ _ _ _ h
          | exact ihCl _ _ _ _ _ h
          | exact ihRF _ _ _ _ h
          | exact ihU _ _ _ h
          | exact ihS _ _ _ h
          | exact ihRT _ _ _ _ h
          | exact ihW _ _ _ _ _ h
          | exact noBad_liftNbe _ _ h
          | exact noBad_expectSubtype _ _ _ _ _ h
          | exact noBad_checkLiteral _ _ _ _ _ h
          | (rw [← TypeError.badLiteralPatterns.inj (Res.err.inj h)]; assumption)
          | (injection h with h2
             subst h2
             first
             | exact ihC _ _ _ _ (by assumption)
             | exact ihCl _ _ _ _ _ (by assumption)
             | exact ihRF _ _ _ _ (by assumption)
             | exact ihU _ _ _ (by assumption)
             | exact ihS _ _ _ (by assumption)
             | exact ihRT _ _ _ _ (by assumption)
             | exact ihW _ _ _ _ _ (by assumption)
             | exact noBad_liftNbe _ _ (by assumption)
             | exact noBad_expectSubtype _ _ _ _ _ (by assumption)
             | exact noBad_checkLiteral _ _ _ _ _ (by assumption))
      · -- synthUniverse
        intro ctx t ps h
        simp only [synthUniverse] at h
        repeat' split at h
        all_goals
          first
          | exact Res.noConfusion h
          | exact TypeError.noConfusion (Res.err.inj h)
          | exact ihC _ _ _ _ h
          | exact ihCl _ _ _ _ _ h
          | exact ihRF _ _ _ _ h
          | exact ihU _ _ _ h
          | exact ihS _ _ _ h
          | exact ihRT _ _ _ _ h
          | exact ihW _ _ _ _ _ h
          | exact noBad_liftNbe _ _ h
          | exact noBad_expectSubtype _ _ _ _ _ h
          | exact noBad_checkLiteral _ _ _ _ _ h
          | (rw [← TypeError.badLiteralPatterns.inj (Res.err.inj h)]; assumption)
          | (injection h with h2
             subst h2
             first
             | exact ihC _ _ _ _ (by assumption)
             | exact ihCl _ _ _ _ _ (by assumption)
             | exact ihRF _ _ _ _ (by assumption)
             | exact ihU _ _ _ (by assumption)
             | exact ihS _ _ _ (by assumption)
             | exact ihRT _ _ _ _ (by assumption)
             | exact ihW _ _ _ _ _ (by assumption)
             | exact noBad_liftNbe _ _ (by assumption)
             | exact noBad_expectSubtype _ _ _ _ _ (by assumption)
             | exact noBad_checkLiteral _ _ _ _ _ (by assumption))
      · -- synthTerm
        intro ctx t ps h
        cases t <;> simp only [synthTerm] at h <;> repeat' split at h
        all_goals
          first
          | exact Res.noConfusion h
          | exact TypeError.noConfusion (Res.err.inj h)
          | exact ihC _ _ _ _ h
          | exact ihCl _ _ _ _ _ h
          | exact ihRF _ _ _ _ h
          | exact ihU _ _ _ h
          | exact ihS _ _ _ h
          | exact ihRT _ _ _ _ h
          | exact ihW _ _ _ _ _ h
          | exact noBad_liftNbe _ _ h
          | exact noBad_expectSubtype _ _ _ _ _ h
          | exact noBad_checkLiteral _ _ _ _ _ h
          | (rw [← TypeError.badLiteralPatterns.inj (Res.err.inj h)]; assumption)
          | (injection h with h2
             subst h2
             first
             | exact ihC _ _ _ _ (by assumption)
             | exact ihCl _ _ _ _ _ (by assumption)
             | exact ihRF _ _ _ _ (by assumption)
             | exact ihU _ _ _ (by assumption)
             | exact ihS _ _ _ (by assumption)
             | exact ihRT _ _ _ _ (by assumption)
             | exact ihW _ _ _ _ _ (by assumption)
             | exact noBad_liftNbe _ _ (by assumption)
             | exact noBad_expectSubtype _ _ _ _ _ (by assumption)
             | exact noBad_checkLiteral _ _ _ _ _ (by assumption))
      · -- synthRecordTypeFields
        intro ctx fields maxLevel ps h
        cases fields with
        | nil => simp only [synthRecordTypeFields] at h; exact Res.noConfusion h
        | cons f rest =>
            obtain ⟨doc, rest2⟩ := f
            obtain ⟨label, ty⟩ := rest2
            simp only [synthRecordTypeFields] at h
            repeat' split at h
            all_goals
              first
          | exact Res.noConfusion h
          | exact TypeError.noConfusion (Res.err.inj h)
          | exact ihC _ _ _ _ h
          | exact ihCl _ _ _ _ _ h
          | exact ihRF _ _ _ _ h
          | exact ihU _ _ _ h
          | exact ihS _ _ _ h
          | exact ihRT _ _ _ _ h
          | exact ihW _ _ _ _ _ h
          | exact noBad_liftNbe _ _ h
          | exact noBad_expectSubtype _ _ _ _ _ h
          | exact noBad_checkLiteral _ _ _ _ _ h
          | (rw [← TypeError.badLiteralPatterns.inj (Res.err.inj h)]; assumption)
          | (injection h with h2
             subst h2
             first
             | exact ihC _ _ _ _ (by assumption)
             | exact ihCl _ _ _ _ _ (by assumption)
             | exact ihRF _ _ _ _ (by assumption)
             | exact ihU _ _ _ (by assumption)
             | exact ihS _ _ _ (by assumption)
             | exact ihRT _ _ _ _ (by assumption)
             | exact ihW _ _ _ _ _ (by assumption)
             | exact noBad_liftNbe _ _ (by assumption)
             | exact noBad_expectSubtype _ _ _ _ _ (by assumption)
             | exact noBad_checkLiteral _ _ _ _ _ (by assumption))
      · -- recordElimWalk
        intro ctx record label recordTy ps h
        simp only [recordElimWalk] at h
        repeat' split at h
        all_goals
          first
          | exact Res.noConfusion h
          | exact TypeError.noConfusion (Res.err.inj h)
          | exact ihC _ _ _ _ h
          | exact ihCl _ _ _ _ _ h
          | exact ihRF _ _ _ _ h
          | exact ihU _ _ _ h
          | exact ihS _ _ _ h
          | exact ihRT _ _ _ _ h
          | exact ihW _ _ _ _ _ h
          | exact noBad_liftNbe _ _ h
          | exact noBad_expectSubtype _ _ _ _ _ h
          | exact noBad_checkLiteral _ _ _ _ _ h
          | (rw [← TypeError.badLiteralPatterns.inj (Res.err.inj h)]; assumption)
          | (injection h with h2
             subst h2
             first
             | exact ihC _ _ _ _ (by assumption)
             | exact ihCl _ _ _ _ _ (by assumption)
             | exact ihRF _ _ _ _ (by assumption)
             | exact ihU _ _ _ (by assumption)
             | exact ihS _ _ _ (by assumption)
             | exact ihRT _ _ _ _ (by assumption)
             | exact ihW _ _ _ _ _ (by assumption)
             | exact noBad_liftNbe _ _ (by assumption)
             | exact noBad_expectSubtype _ _ _ _ _ (by assumption)
             | exact noBad_checkLiteral _ _ _ _ _ (by assumption))

/-! ## Strict ascension of pattern tables -/

/-- The sortedness guard accepts a table exactly when it is a strictly
ascending chain under the literal order. -/
theorem badPats_eq_false_iff : ∀ ps : List LiteralIntro,
    badPats ps = false ↔ List.Chain' LiteralIntro.ltP ps
  | [] => by simp [badPats]
  | [a] => by simp [badPats]
  | a :: b :: rest => by
      have hgl : LiteralIntro.geB a b = false ↔ LiteralIntro.ltP a b := by
        unfold LiteralIntro.geB LiteralIntro.ltP
        cases hc : LiteralIntro.cmp a b <;> simp [hc]
      rw [show badPats (a :: b :: rest)
            = (LiteralIntro.geB a b || badPats (b :: rest)) from rfl]
      rw [Bool.or_eq_false_iff, List.chain'_cons, hgl,
        badPats_eq_false_iff (b :: rest)]

instance : DecidableRel LiteralIntro.ltP := fun a b =>
  inferInstanceAs (Decidable (LiteralIntro.cmp a b = .lt))

/-! ## Claims about literal-elimination checking -/

/-- **C2.** For a literal-elimination term whose scrutinee synthesizes,
the check fails with `BadLiteralPatterns` listing the clause patterns if
and only if the patterns are not strictly ascending by literal payload
(adjacent `first ≥ second`, which also forbids duplicates); otherwise each
pattern is checked against the scrutinee's synthesized type and every
clause body and the default body are checked against the expected type. -/
theorem claim_c2_literal_patterns_sorted (fuel : Nat) (ctx : Context)
    (scrutinee : Term) (clauses : List (LiteralIntro × Term)) (defaultBody : Term)
    (expectedTy scrutineeTy : Value)
    (hs : synthTerm fuel ctx scrutinee = .ok scrutineeTy) :
    (checkTerm (fuel + 1) ctx (.literalElim scrutinee clauses defaultBody) expectedTy
        = .err (.badLiteralPatterns (clauses.map Prod.fst))
      ↔ ¬ List.Chain' LiteralIntro.ltP (clauses.map Prod.fst)) ∧
    (List.Chain' LiteralIntro.ltP (clauses.map Prod.fst) →
      checkTerm (fuel + 1) ctx (.literalElim scrutinee clauses defaultBody) expectedTy
        = match checkClauses fuel ctx clauses scrutineeTy expectedTy with
          | .ok _ => checkTerm fuel ctx defaultBody expectedTy
          | .err e => .err e
          | .timeout => .timeout) ∧
    (∀ lit body rest sTy eTy,
      checkClauses (fuel + 1) ctx ((lit, body) :: rest) sTy eTy
        = match checkLiteral fuel ctx lit sTy with
          | .ok _ =>
            match checkTerm fuel ctx body eTy with
            | .ok _ => checkClauses fuel ctx rest sTy eTy
            | .err e => .err e
            | .timeout => .timeout
          | .err e => .err e
          | .timeout => .timeout) := by
  have hproceed : badPats (clauses.map Prod.fst) = false →
      checkTerm (fuel + 1) ctx (.literalElim scrutinee clauses defaultBody) expectedTy
        = match checkClauses fuel ctx clauses scrutineeTy expectedTy with
          | .ok _ => checkTerm fuel ctx defaultBody expectedTy
          | .err e => .err e
          | .timeout => .timeout := by
    intro hb
    simp only [checkTerm, hs, hb, Bool.false_eq_true, if_false]
  refine ⟨⟨?_, ?_⟩, ?_, ?_⟩
  · intro h hc
    have hbad := (validator_noBad (fuel + 1)).1 ctx
      (.literalElim scrutinee clauses defaultBody) expectedTy (clauses.map Prod.fst) h
    rw [(badPats_eq_false_iff (clauses.map Prod.fst)).2 hc] at hbad
    exact Bool.noConfusion hbad
  · intro hc
    have hb : badPats (clauses.map Prod.fst) = true := by
      cases hbp : badPats (clauses.map Prod.fst) with
      | false => exact absurd ((badPats_eq_false_iff _).1 hbp) hc
      | true => rfl
    simp only [checkTerm, hs, hb, if_true]
  · intro hc
    exact hproceed ((badPats_eq_false_iff _).2 hc)
  · intro lit body rest sTy eTy
    simp only [checkClauses]

/-- Witness for C2: the boolean scenario of the spec (§8): sorted clauses
are accepted, swapped clauses are rejected with `BadLiteralPatterns`. -/
theorem claim_c2_witness :
    (checkTerm 10 Context.new
        (.literalElim (.literalIntro (.bool true))
          [(.bool false, .literalIntro (.u8 0)), (.bool true, .literalIntro (.u8 1))]
          (.literalIntro (.u8 2)))
        (.literalType .u8)
      = .ok ()) ∧
    (checkTerm 10 Context.new
        (.literalElim (.literalIntro (.bool true))
          [(.bool true, .literalIntro (.u8 1)), (.bool false, .literalIntro (.u8 0))]
          (.literalIntro (.u8 2)))
        (.literalType .u8)
      = .err (.badLiteralPatterns [.bool true, .bool false])) :=
  ⟨Eq.trans ((claim_c2_literal_patterns_sorted 9 Context.new
      (.literalIntro (.bool true))
      [(.bool false, .literalIntro (.u8 0)), (.bool true, .literalIntro (.u8 1))]
      (.literalIntro (.u8 2)) (.literalType .u8) (.literalType .bool) rfl).2.1
      ((badPats_eq_false_iff _).1 rfl)) rfl,
   ((claim_c2_literal_patterns_sorted 9 Context.new
      (.literalIntro (.bool true))
      [(.bool true, .literalIntro (.u8 1)), (.bool false, .literalIntro (.u8 0))]
      (.literalIntro (.u8 2)) (.literalType .u8) (.literalType .bool) rfl).1).2
      (fun hc => absurd ((badPats_eq_false_iff _).2 hc) (by decide))⟩

/-- The IEEE 754 double bit pattern of `+0.0`. -/
def f64PosZeroBits : Nat := 0

/-- The IEEE 754 double bit pattern of `-0.0` (sign bit set). -/
def f64NegZeroBits : Nat := 0x8000000000000000

/-- The IEEE 754 double bit pattern of a quiet NaN. -/
def f64NaNBits : Nat := 0x7ff8000000000000

/-- **C1.** For literal-elimination clause tables of float literals, the
sortedness check in `check_term` compares payloads bit-wise (the `≥` of
`f64` patterns is the `≥` of their bit patterns, not IEEE `>=`): a table
holding both `+0.0` and `-0.0` in bit-wise ascending order is accepted —
the check proceeds to the clauses, and no `BadLiteralPatterns` error ever
lists this table — and a NaN pattern is comparison-equal only to the
bit-identical NaN. -/
theorem claim_c1_float_patterns_bitwise (fuel : Nat) (ctx : Context)
    (scrutinee b1 b2 defaultBody : Term) (expectedTy scrutineeTy : Value)
    (hs : synthTerm fuel ctx scrutinee = .ok scrutineeTy) :
    (∀ x y : Nat, LiteralIntro.geB (.f64 x) (.f64 y) = decide (y ≤ x)) ∧
    (checkTerm (fuel + 1) ctx
        (.literalElim scrutinee
          [(.f64 f64PosZeroBits, b1), (.f64 f64NegZeroBits, b2)] defaultBody)
        expectedTy
      = match checkClauses fuel ctx
            [(.f64 f64PosZeroBits, b1), (.f64 f64NegZeroBits, b2)]
            scrutineeTy expectedTy with
        | .ok _ => checkTerm fuel ctx defaultBody expectedTy
        | .err e => .err e
        | .timeout => .timeout) ∧
    (∀ t, checkTerm (fuel + 1) ctx t expectedTy
      ≠ .err (.badLiteralPatterns [.f64 f64PosZeroBits, .f64 f64NegZeroBits])) ∧
    (∀ x y : Nat, LiteralIntro.cmp (.f64 x) (.f64 y) = .eq ↔ x = y) := by
  have hb : badPats [LiteralIntro.f64 f64PosZeroBits, LiteralIntro.f64 f64NegZeroBits]
      = false := by decide
  refine ⟨?_, ?_, ?_, ?_⟩
  · intro x y
    simp only [LiteralIntro.geB, LiteralIntro.cmp]
    cases h : compare x y with
    | lt =>
        have hx : ¬ y ≤ x := Nat.not_le.2 (Nat.compare_eq_lt.1 h)
        simp [hx]
    | eq =>
        have hx : x = y := Nat.compare_eq_eq.1 h
        subst hx
        simp
    | gt =>
        have hx : y ≤ x := Nat.le_of_lt (Nat.compare_eq_gt.1 h)
        simp [hx]
  · have hmap : List.map Prod.fst
        [(LiteralIntro.f64 f64PosZeroBits, b1), (LiteralIntro.f64 f64NegZeroBits, b2)]
        = [LiteralIntro.f64 f64PosZeroBits, LiteralIntro.f64 f64NegZeroBits] := rfl
    simp only [checkTerm, hs, hmap, hb, Bool.false_eq_true, if_false]
  · intro t h
    have hbad := (validator_noBad (fuel + 1)).1 ctx t expectedTy
      [.f64 f64PosZeroBits, .f64 f64NegZeroBits] h
    rw [hb] at hbad
    exact Bool.noConfusion hbad
  · intro x y
    simp only [LiteralIntro.cmp]
    exact Nat.compare_eq_eq

/-- Witness for C1: a literal elimination over `F64` whose clause table is
`[+0.0, -0.0]` (bit-wise ascending) checks successfully, and the NaN
pattern relates as comparison-equal exactly to its own bits. -/
theorem claim_c1_witness :
    (checkTerm 10 Context.new
        (.literalElim (.literalIntro (.f64 f64NaNBits))
          [(.f64 f64PosZeroBits, .literalIntro (.u8 0)),
           (.f64 f64NegZeroBits, .literalIntro (.u8 1))]
          (.literalIntro (.u8 2)))
        (.literalType .u8)
      = .ok ()) ∧
    (LiteralIntro.geB (.f64 f64NaNBits) (.f64 f64NaNBits) = decide (f64NaNBits ≤ f64NaNBits)) ∧
    (LiteralIntro.cmp (.f64 f64NaNBits) (.f64 f64NaNBits) = .eq ↔ f64NaNBits = f64NaNBits) ∧
    (checkTerm 10 Context.new (.literalIntro (.bool true)) (.literalType .bool)
      ≠ .err (.badLiteralPatterns [.f64 f64PosZeroBits, .f64 f64NegZeroBits])) :=
  ⟨Eq.trans ((claim_c1_float_patterns_bitwise 9 Context.new
      (.literalIntro (.f64 f64NaNBits)) (.literalIntro (.u8 0)) (.literalIntro (.u8 1))
      (.literalIntro (.u8 2)) (.literalType .u8) (.literalType .f64) rfl).2.1) rfl,
   (claim_c1_float_patterns_bitwise 9 Context.new
      (.literalIntro (.f64 f64NaNBits)) (.literalIntro (.u8 0)) (.literalIntro (.u8 1))
      (.literalIntro (.u8 2)) (.literalType .u8) (.literalType .f64) rfl).1
      f64NaNBits f64NaNBits,
   (claim_c1_float_patterns_bitwise 9 Context.new
      (.literalIntro (.f64 f64NaNBits)) (.literalIntro (.u8 0)) (.literalIntro (.u8 1))
      (.literalIntro (.u8 2)) (.literalType .u8) (.literalType .f64) rfl).2.2.2
      f64NaNBits f64NaNBits,
   (claim_c1_float_patterns_bitwise 9 Context.new
      (.literalIntro (.f64 f64NaNBits)) (.literalIntro (.u8 0)) (.literalIntro (.u8 1))
      (.literalIntro (.u8 2)) (.literalType .bool) (.literalType .f64) rfl).2.2.1
      (.literalIntro (.bool true))⟩

end Mltt
